import Mathlib

/-!
Verification of the response-parsing module (`botocore/parsers.py`): a shallow
embedding of the shape-driven HTTP-response decoders for the five protocol
variants (query, ec2, json, rest-json, rest-xml), together with theorems about
the decoding behaviour.

Modelling conventions:
* Python runtime values flowing through the parser are embedded as the dynamic
  type `Dyn`; Python `dict`s are insertion-ordered association lists.
* Python exceptions are the error side of `Except PyErr`; the distinction
  between the module's own `ResponseParserError` and interpreter-level errors
  (`UnboundLocalError`, `TypeError`, ...) is preserved.
* Low-level XML/JSON tokenising is external to the module (it calls
  `xml.etree.cElementTree` and `json.loads`); a response body is therefore
  embedded in already-tokenised form (`XmlNode` roots, JSON `Dyn` trees),
  with the decoded body text kept alongside for the streaming-payload path.
  Bodies are modelled as UTF-8 text.
* The shape kinds `float`, `double` and `timestamp` delegate to external
  converters (`float()`, the injected timestamp parser) and are not touched by
  any claim; they are left out of the embedded shape kinds.
-/

/-- Python exceptions that can escape the parsing code.  `responseParserError`
is the module's own declared decode failure; the others are interpreter-level
errors. -/
inductive PyErr where
  | responseParserError (msg : String)
  | unboundLocal (nm : String)
  | valueError (msg : String)
  | typeError (msg : String)
  | attributeError (msg : String)
  | keyError (msg : String)
  | jsonDecodeError
  | xmlSyntaxError
  | recursionLimit
deriving DecidableEq, Repr

/-- An XML DOM element as produced by the external tokenizer
(`xml.etree.cElementTree`): a (possibly namespace-qualified) tag, the optional
text content, and the list of child elements. -/
inductive XmlNode where
  | mk (tag : String) (text : Option String) (children : List XmlNode)

def XmlNode.tag : XmlNode → String
  | .mk t _ _ => t

def XmlNode.text : XmlNode → Option String
  | .mk _ t _ => t

def XmlNode.children : XmlNode → List XmlNode
  | .mk _ _ cs => cs

mutual
/-- Nesting depth of an XML element (used as a recursion bound for the
leaf-collapse routine, whose recursion in the source is bounded by the
nesting depth of the document). -/
def XmlNode.depth : XmlNode → Nat
  | .mk _ _ cs => 1 + XmlNode.depthList cs
def XmlNode.depthList : List XmlNode → Nat
  | [] => 0
  | c :: rest => max (XmlNode.depth c) (XmlNode.depthList rest)
end

/-- A dynamic (Python) runtime value: the values that flow through the parse
routines.  `dict` is insertion-ordered, as Python dicts are. -/
inductive Dyn where
  | none
  | str (s : String)
  | int (i : Int)
  | bool (b : Bool)
  | bytes (bs : List Nat)
  | list (xs : List Dyn)
  | dict (kvs : List (Dyn × Dyn))
  | node (n : XmlNode)

def Dyn.isList : Dyn → Bool
  | .list _ => true
  | _ => false

def Dyn.isBytes : Dyn → Bool
  | .bytes _ => true
  | _ => false

/-- Python iteration (`for item in node`).  Iterating an XML element yields its
children; iterating a string yields its one-character substrings; iterating a
dict yields its keys; `None`/numbers are not iterable. -/
def Dyn.iter : Dyn → Except PyErr (List Dyn)
  | .list xs => .ok xs
  | .node n => .ok (n.children.map Dyn.node)
  | .str s => .ok (s.toList.map (fun c => Dyn.str (String.singleton c)))
  | .dict kvs => .ok (kvs.map (fun p => p.1))
  | .bytes bs => .ok (bs.map (fun b => Dyn.int b))
  | _ => .error (.typeError "object is not iterable")

/-- Python `==` as used on dict keys.  The keys that reach a dict in this
module are hashable scalars; `True == 1` cross-type numeric equality is
honoured.  Distinct XML element objects are never equal (identity
semantics), and fresh elements are never inserted twice, so `node` keys
compare unequal. -/
def Dyn.keyEq : Dyn → Dyn → Bool
  | .none, .none => true
  | .str a, .str b => a == b
  | .int a, .int b => a == b
  | .bool a, .bool b => a == b
  | .int a, .bool b => a == (if b then (1 : Int) else 0)
  | .bool a, .int b => (if a then (1 : Int) else 0) == b
  | .bytes a, .bytes b => a == b
  | _, _ => false

/-- Python hashability of the values this module can produce: lists and dicts
are unhashable and cannot be used as dict keys. -/
def Dyn.isHashable : Dyn → Bool
  | .list _ => false
  | .dict _ => false
  | _ => true

/-- `d.get(k)` for a string key. -/
def dictGetS (d : List (Dyn × Dyn)) (k : String) : Option Dyn :=
  (d.find? (fun p => p.1.keyEq (.str k))).map (fun p => p.2)

/-- `k in d` for a string key. -/
def dictHasS (d : List (Dyn × Dyn)) (k : String) : Bool :=
  d.any (fun p => p.1.keyEq (.str k))

/-- `d[k] = v`: replace the value in place if the key is present (the original
key object and its position are kept), else append. -/
def dictSetK (d : List (Dyn × Dyn)) (k v : Dyn) : List (Dyn × Dyn) :=
  if d.any (fun p => p.1.keyEq k) then
    d.map (fun p => if p.1.keyEq k then (p.1, v) else p)
  else d ++ [(k, v)]

def dictSetS (d : List (Dyn × Dyn)) (k : String) (v : Dyn) : List (Dyn × Dyn) :=
  dictSetK d (.str k) v

/-- `d[k] = v` with an arbitrary runtime key: unhashable keys raise
`TypeError`. -/
def pyDictSet (d : List (Dyn × Dyn)) (k v : Dyn) : Except PyErr (List (Dyn × Dyn)) :=
  if k.isHashable then .ok (dictSetK d k v)
  else .error (.typeError "unhashable type")

/-- `d.pop(k)` for a string key: the removed value and the remaining dict,
or `none` when the key is absent. -/
def dictPopS (d : List (Dyn × Dyn)) (k : String) : Option (Dyn × List (Dyn × Dyn)) :=
  match dictGetS d k with
  | some v => some (v, d.filter (fun p => !(p.1.keyEq (.str k))))
  | Option.none => Option.none

/-- `d.update(other)`: assign every entry of `other`, in order. -/
def pyUpdate (d upd : List (Dyn × Dyn)) : List (Dyn × Dyn) :=
  upd.foldl (fun acc p => dictSetK acc p.1 p.2) d

/-- An element's `.text` attribute as a runtime value (`None` or a string). -/
def optToDyn : Option String → Dyn
  | some s => .str s
  | Option.none => .none

/-- `c in s` for a character (computable character-list implementation of
`str.__contains__`). -/
def strContains (s : String) (c : Char) : Bool :=
  s.toList.contains c

/-- `s.split(sep)` for a one-character separator (also the building block of
`s.rsplit(sep, 1)[1]`, which is the last element of the full split). -/
def splitChar (c : Char) (s : String) : List String :=
  let rec go : List Char → List Char → List String
    | [], acc => [String.mk acc.reverse]
    | x :: xs, acc =>
        if x = c then String.mk acc.reverse :: go xs []
        else go xs (x :: acc)
  go s.toList []

/-- `str.lower()` (ASCII, which covers the header names this module
lowercases). -/
def charToLower (c : Char) : Char :=
  if 'A' ≤ c ∧ c ≤ 'Z' then Char.ofNat (c.toNat + 32) else c

def strToLower (s : String) : String :=
  String.mk (s.toList.map charToLower)

/-- `s.startswith(p)`. -/
def strStartsWith (s p : String) : Bool :=
  p.toList.isPrefixOf s.toList

/-- `re.compile('{.*}').sub('', tag)`: greedy, so on a (single-line) tag it
removes the span from the first `\x7b` through the last `\x7d` after it, which
strips a namespace qualifier such as in `\x7bhttp://ns\x7dName`. -/
def stripNamespace (tag : String) : String :=
  let cs := tag.toList
  match cs.findIdx? (fun c => c = '{'), cs.reverse.findIdx? (fun c => c = '}') with
  | some i, some jr =>
      let j := cs.length - 1 - jr
      if i < j then String.mk (cs.take i ++ cs.drop (j + 1)) else tag
  | _, _ => tag

/-- `BaseXMLResponseParser._node_tag`: the namespace-stripped tag of an
element; accessing `.tag` on a non-element raises. -/
def node_tag : Dyn → Except PyErr String
  | .node n => .ok (stripNamespace n.tag)
  | _ => .error (.attributeError "tag")

/-- Python `int(s)` on a string: optional surrounding whitespace, optional
sign, at least one decimal digit. -/
def pyInt (s : String) : Except PyErr Int :=
  let t := (s.toList.dropWhile Char.isWhitespace).reverse.dropWhile Char.isWhitespace
  let (sign, ds) : Int × List Char :=
    match t.reverse with
    | '-' :: rest => (-1, rest)
    | '+' :: rest => (1, rest)
    | cs => (1, cs)
  if ds.isEmpty || !(ds.all Char.isDigit) then
    .error (.valueError "invalid literal for int()")
  else
    .ok (sign * (ds.foldl (fun n c => 10 * n + (c.toNat - '0'.toNat)) 0 : Nat))

/-- `int(node.text)` when the text attribute may be `None` (then `TypeError`). -/
def pyIntOpt : Option String → Except PyErr Int
  | some s => pyInt s
  | Option.none => .error (.typeError "int() argument must not be None")

/-- Value of one character of the base64 alphabet. -/
def b64Val (c : Char) : Option Nat :=
  if 'A' ≤ c ∧ c ≤ 'Z' then some (c.toNat - 'A'.toNat)
  else if 'a' ≤ c ∧ c ≤ 'z' then some (c.toNat - 'a'.toNat + 26)
  else if '0' ≤ c ∧ c ≤ '9' then some (c.toNat - '0'.toNat + 52)
  else if c = '+' then some 62
  else if c = '/' then some 63
  else Option.none

/-- Decode a run of 6-bit groups into bytes (4 groups to 3 bytes, with the
shortened final group of 2 or 3 yielding 1 or 2 bytes). -/
def b64Groups : List Nat → List Nat
  | a :: b :: c :: d :: rest =>
      (a * 4 + b / 16) :: ((b % 16) * 16 + c / 4) :: ((c % 4) * 64 + d) :: b64Groups rest
  | [a, b] => [a * 4 + b / 16]
  | [a, b, c] => [a * 4 + b / 16, (b % 16) * 16 + c / 4]
  | _ => []

/-- `base64.b64decode`: characters outside the alphabet are discarded, data
stops at the first padding character, and a trailing group of one character is
a padding error. -/
def b64decode (s : String) : Except PyErr (List Nat) :=
  let kept := s.toList.filter (fun c => (b64Val c).isSome || c = '=')
  let data := kept.takeWhile (fun c => !(c = '='))
  let vals := data.filterMap b64Val
  if vals.length % 4 = 1 then .error (.valueError "Invalid base64-encoded string")
  else .ok (b64Groups vals)

/-- Python `x or default` on an optional serialization name: `None` and the
empty string both fall back to the default. -/
def pyOr (x : Option String) (d : String) : String :=
  match x with
  | some s => if s.isEmpty then d else s
  | Option.none => d

/-- The serialization descriptor carried by every shape. -/
structure Ser where
  name : Option String := Option.none
  location : Option String := Option.none
  flattened : Bool := false
  payload : Option String := Option.none
  resultWrapper : Option String := Option.none
deriving DecidableEq, Repr

/-- Scalar shape kinds (`float`/`double`/`timestamp` delegate to external
converters and are outside the claims; see the module comment). -/
inductive SKind where
  | string | character | boolean | integer | long | blob
deriving DecidableEq, Repr

def SKind.typeName : SKind → String
  | .string => "string"
  | .character => "character"
  | .boolean => "boolean"
  | .integer => "integer"
  | .long => "long"
  | .blob => "blob"

/-- The external shape descriptor: structure, list, map or scalar, each with a
serialization descriptor. -/
inductive Shape where
  | struct (ser : Ser) (members : List (String × Shape))
  | list (ser : Ser) (member : Shape)
  | map (ser : Ser) (key val : Shape)
  | scalar (k : SKind) (ser : Ser)

def Shape.serialization : Shape → Ser
  | .struct s _ => s
  | .list s _ => s
  | .map s _ _ => s
  | .scalar _ s => s

def Shape.type_name : Shape → String
  | .struct _ _ => "structure"
  | .list _ _ => "list"
  | .map _ _ _ => "map"
  | .scalar k _ => k.typeName

/-- `shape.members` (attribute access: only structures carry members). -/
def Shape.membersE : Shape → Except PyErr (List (String × Shape))
  | .struct _ ms => .ok ms
  | _ => .error (.attributeError "members")

/-- The five protocol variants; scalar/container handler resolution follows
the Python class hierarchy (`QueryParser`, `EC2QueryParser`, `JSONParser`,
`RestJSONParser`, `RestXMLParser`). -/
inductive Variant where
  | query | ec2 | json | restJson | restXml
deriving DecidableEq, Repr

/-- Modelled from the spec: the standard HTTP reason-phrase table
(`http_client.responses` from the Python standard library, external to the
repository), mapping a status code to its standard reason phrase. -/
def http_client_responses : List (Int × String) :=
  [(100, "Continue"), (101, "Switching Protocols"),
   (200, "OK"), (201, "Created"), (202, "Accepted"),
   (203, "Non-Authoritative Information"), (204, "No Content"),
   (205, "Reset Content"), (206, "Partial Content"),
   (300, "Multiple Choices"), (301, "Moved Permanently"), (302, "Found"),
   (303, "See Other"), (304, "Not Modified"), (305, "Use Proxy"),
   (307, "Temporary Redirect"),
   (400, "Bad Request"), (401, "Unauthorized"), (402, "Payment Required"),
   (403, "Forbidden"), (404, "Not Found"), (405, "Method Not Allowed"),
   (406, "Not Acceptable"), (407, "Proxy Authentication Required"),
   (408, "Request Timeout"), (409, "Conflict"), (410, "Gone"),
   (411, "Length Required"), (412, "Precondition Failed"),
   (413, "Request Entity Too Large"), (414, "Request-URI Too Long"),
   (415, "Unsupported Media Type"), (416, "Requested Range Not Satisfiable"),
   (417, "Expectation Failed"),
   (500, "Internal Server Error"), (501, "Not Implemented"),
   (502, "Bad Gateway"), (503, "Service Unavailable"),
   (504, "Gateway Timeout"), (505, "HTTP Version Not Supported")]

/-- `ResponseParser._default_handle`, as overridden by
`RestXMLParser._default_handle` (which returns the text of an XML node and
passes every other value through unchanged). -/
def RestXMLParser.default_handle (node : Dyn) : Dyn :=
  match node with
  | .node n => optToDyn n.text
  | _ => node

/-- `QueryParser._handle_string` (and `_handle_character`): the element's
text. -/
def QueryParser.handle_string (node : Dyn) : Except PyErr Dyn :=
  match node with
  | .node n => .ok (optToDyn n.text)
  | _ => .error (.attributeError "text")

/-- `BaseXMLResponseParser._handle_boolean`: `True` exactly when the text is
the literal `true`. -/
def BaseXMLResponseParser.handle_boolean (node : Dyn) : Except PyErr Dyn :=
  match node with
  | .node n => .ok (.bool (n.text == some "true"))
  | _ => .error (.attributeError "text")

/-- `BaseXMLResponseParser._handle_integer` (and `_handle_long`):
`int(node.text)`. -/
def BaseXMLResponseParser.handle_integer (node : Dyn) : Except PyErr Dyn :=
  match node with
  | .node n => (pyIntOpt n.text).map (fun i => .int i)
  | _ => .error (.attributeError "text")

/-- `QueryParser._handle_blob` (also `RestXMLParser._handle_blob`): base64
decode of the element text, yielding raw bytes. -/
def QueryParser.handle_blob (node : Dyn) : Except PyErr Dyn :=
  match node with
  | .node n =>
    match n.text with
    | some s => (b64decode s).map (fun bs => .bytes bs)
    | Option.none => .error (.typeError "argument should be a bytes-like object")
  | _ => .error (.attributeError "text")

/-- `BaseJSONParser._handle_blob`: base64 decode of the JSON string. -/
def BaseJSONParser.handle_blob (value : Dyn) : Except PyErr Dyn :=
  match value with
  | .str s => (b64decode s).map (fun bs => .bytes bs)
  | _ => .error (.typeError "argument should be a bytes-like object")

/-- `RestXMLParser._handle_integer` (and `_handle_long`): `int(node.text)` for
an element, `int(node)` for an already-native value. -/
def RestXMLParser.handle_integer (node : Dyn) : Except PyErr Dyn :=
  match node with
  | .node n => (pyIntOpt n.text).map (fun i => .int i)
  | .str s => (pyInt s).map (fun i => .int i)
  | .int i => .ok (.int i)
  | .bool b => .ok (.int (if b then 1 else 0))
  | _ => .error (.typeError "int() argument")

/-- Scalar-shape handler resolution: `getattr(self, '_handle_%s' % type_name,
self._default_handle)` resolved along each variant's class hierarchy.  The
JSON-family parsers define no string/boolean/integer handlers, so those kinds
fall back to the default passthrough. -/
def handle_scalar (v : Variant) (k : SKind) (node : Dyn) : Except PyErr Dyn :=
  match v with
  | .query | .ec2 =>
    match k with
    | .string | .character => QueryParser.handle_string node
    | .boolean => BaseXMLResponseParser.handle_boolean node
    | .integer | .long => BaseXMLResponseParser.handle_integer node
    | .blob => QueryParser.handle_blob node
  | .json | .restJson =>
    match k with
    | .blob => BaseJSONParser.handle_blob node
    | _ => .ok node
  | .restXml =>
    match k with
    | .boolean => BaseXMLResponseParser.handle_boolean node
    | .integer | .long => RestXMLParser.handle_integer node
    | .blob => QueryParser.handle_blob node
    | .string | .character => .ok (RestXMLParser.default_handle node)

/-- `BaseXMLResponseParser._build_name_to_xml_node`: group an element's
children by namespace-stripped tag; a repeated tag aggregates into a list
(in order), a singleton stays a bare node. -/
def build_name_to_xml_node (parent_node : Dyn) : Except PyErr (List (Dyn × Dyn)) := do
  let items ← parent_node.iter
  items.foldlM (fun xml_dict item => do
    let key ← node_tag item
    match dictGetS xml_dict key with
    | some (.list xs) => pure (dictSetS xml_dict key (.list (xs ++ [item])))
    | some old => pure (dictSetS xml_dict key (.list [old, item]))
    | Option.none => pure (xml_dict ++ [(.str key, item)])) []

/-- `BaseXMLResponseParser._replace_nodes` (leaf-collapse): replace every
value that still has children by the collapse of its child index, and every
leaf by its text.  The source recursion is bounded by the document's nesting
depth; `fuel` is a bound on that depth supplied by the callers, so the
`recursionLimit` branch is unreachable. -/
def replace_nodes (fuel : Nat) (parsed : List (Dyn × Dyn)) :
    Except PyErr (List (Dyn × Dyn)) :=
  match fuel with
  | 0 => .error .recursionLimit
  | fuel + 1 =>
    parsed.mapM (fun p =>
      match p.2 with
      | .node n =>
        if n.children.isEmpty then pure (p.1, optToDyn n.text)
        else do
          let sub ← build_name_to_xml_node p.2
          let subr ← replace_nodes fuel sub
          pure (p.1, .dict subr)
      | _ => .error (.attributeError "getchildren"))

/-- `BaseXMLResponseParser._member_key_name`: a flattened list member with an
explicitly named inner member uses that inner name; otherwise the member's
own serialization name; otherwise the member key. -/
def BaseXMLResponseParser.member_key_name (shape : Shape) (member_name : String) : String :=
  let innerName : Option String :=
    match shape with
    | .list ser member => if ser.flattened then member.serialization.name else Option.none
    | _ => Option.none
  match innerName with
  | some n => n
  | Option.none =>
    match shape.serialization.name with
    | some n => n
    | Option.none => member_name

mutual
/-- `ResponseParser._parse_shape`: dispatch on the shape's kind to the
handler resolved along the variant's class hierarchy, recursing into
containers. -/
def parse_shape (v : Variant) : Shape → Dyn → Except PyErr Dyn
  | .struct _ members, node =>
    match v with
    | .query | .ec2 | .restXml => do
        -- BaseXMLResponseParser._handle_structure
        let xml_dict ← build_name_to_xml_node node
        let parsed ← xmlStructMembers v xml_dict [] members
        pure (.dict parsed)
    | .json | .restJson => do
        -- BaseJSONParser._handle_structure
        let parsed ← jsonStructMembers v node [] members
        pure (.dict parsed)
  | .list ser member, node =>
    match v with
    | .query | .ec2 | .restXml => do
        -- BaseXMLResponseParser._handle_list wraps a flattened non-list node
        -- into a one-element list, then ResponseParser._handle_list decodes
        -- the member shape element-wise
        let node2 := if ser.flattened && !node.isList then Dyn.list [node] else node
        let items ← node2.iter
        let parsed ← items.mapM (fun item => parse_shape v member item)
        pure (.list parsed)
    | .json | .restJson => do
        -- ResponseParser._handle_list
        let items ← node.iter
        let parsed ← items.mapM (fun item => parse_shape v member item)
        pure (.list parsed)
  | .map _ key_shape value_shape, node =>
    match v with
    | .query | .ec2 | .restXml => do
        -- BaseXMLResponseParser._handle_map: the key/value bindings are
        -- function-local and persist across entry iterations; an unknown tag
        -- raises ResponseParserError; `parsed[key_name] = val_name` reads
        -- val_name first, then key_name (an unassigned one raises
        -- UnboundLocalError)
        let key_location_name := pyOr key_shape.serialization.name "key"
        let value_location_name := pyOr value_shape.serialization.name "value"
        let entries ← node.iter
        let st ← entries.foldlM
          (fun (st : List (Dyn × Dyn) × Option Dyn × Option Dyn) keyval_node => do
            let pairs ← keyval_node.iter
            let kv ← pairs.foldlM
              (fun (kv : Option Dyn × Option Dyn) single_pair => do
                let tag_name ← node_tag single_pair
                if tag_name = key_location_name then do
                  let k ← parse_shape v key_shape single_pair
                  pure (some k, kv.2)
                else if tag_name = value_location_name then do
                  let w ← parse_shape v value_shape single_pair
                  pure (kv.1, some w)
                else
                  throw (.responseParserError ("Unknown tag: " ++ tag_name)))
              (st.2.1, st.2.2)
            match kv.2 with
            | Option.none => throw (.unboundLocal "val_name")
            | some vv =>
              match kv.1 with
              | Option.none => throw (.unboundLocal "key_name")
              | some kk => do
                let d ← pyDictSet st.1 kk vv
                pure (d, some kk, some vv))
          ([], Option.none, Option.none)
        pure (.dict st.1)
    | .json | .restJson =>
        -- BaseJSONParser._handle_map: decode both key and value through
        -- their shapes
        match node with
        | .dict kvs => do
            let parsed ← kvs.foldlM (fun parsed p => do
              let actual_key ← parse_shape v key_shape p.1
              let actual_value ← parse_shape v value_shape p.2
              pyDictSet parsed actual_key actual_value) []
            pure (.dict parsed)
        | _ => throw (.attributeError "items")
  | .scalar k _, node => handle_scalar v k node

/-- The member loop of `BaseXMLResponseParser._handle_structure`: members
with a declared location are skipped; a member absent from the tag index is
omitted from the result. -/
def xmlStructMembers (v : Variant) (xml_dict : List (Dyn × Dyn))
    (parsed : List (Dyn × Dyn)) :
    List (String × Shape) → Except PyErr (List (Dyn × Dyn))
  | [] => pure parsed
  | (member_name, member_shape) :: rest =>
    if (member_shape.serialization.location).isSome then
      xmlStructMembers v xml_dict parsed rest
    else
      match dictGetS xml_dict (BaseXMLResponseParser.member_key_name member_shape member_name) with
      | some member_node => do
          let pv ← parse_shape v member_shape member_node
          xmlStructMembers v xml_dict (dictSetS parsed member_name pv) rest
      | Option.none => xmlStructMembers v xml_dict parsed rest

/-- The member loop of `BaseJSONParser._handle_structure`: a member absent or
null in the raw JSON object is omitted from the result. -/
def jsonStructMembers (v : Variant) (value : Dyn)
    (parsed : List (Dyn × Dyn)) :
    List (String × Shape) → Except PyErr (List (Dyn × Dyn))
  | [] => pure parsed
  | (member_name, member_shape) :: rest => do
    let raw ← match value with
      | .dict kvs => pure (dictGetS kvs ((member_shape.serialization.name).getD member_name))
      | _ => throw (.attributeError "get")
    match raw with
    | some Dyn.none => jsonStructMembers v value parsed rest
    | some rv => do
        let pv ← parse_shape v member_shape rv
        jsonStructMembers v value (dictSetS parsed member_name pv) rest
    | Option.none => jsonStructMembers v value parsed rest
end

/-- An HTTP response for the XML-body protocols (`query`, `ec2`).  The body
is kept in already-tokenised form: `body` is the DOM root that
`_parse_xml_string_to_dom` (external tokenizer) yields for the body bytes. -/
structure XmlResponse where
  status_code : Int
  headers : List (String × String)
  body : XmlNode

/-- `QueryParser._do_error_parse`: leaf-collapse the whole body, then promote
a top-level `RequestId` into `ResponseMetadata`. -/
def QueryParser.do_error_parse (resp : XmlResponse) : Except PyErr Dyn := do
  let root := resp.body
  let parsed0 ← build_name_to_xml_node (.node root)
  let parsed ← replace_nodes (XmlNode.depth root + 1) parsed0
  match dictPopS parsed "RequestId" with
  | some (rid, rest) =>
      pure (.dict (dictSetS rest "ResponseMetadata" (.dict [(.str "RequestId", rid)])))
  | Option.none => pure (.dict parsed)

/-- `QueryParser._find_result_wrapped_shape`: index the root's children and
subscript with the wrapper element name (`KeyError` when absent). -/
def QueryParser.find_result_wrapped_shape (element_name : String) (xml_root_node : Dyn) :
    Except PyErr Dyn := do
  let mapping ← build_name_to_xml_node xml_root_node
  match dictGetS mapping element_name with
  | some v => pure v
  | Option.none => throw (.keyError element_name)

/-- `QueryParser._inject_response_metadata`: if the root has a
`ResponseMetadata` child, flatten that child's children to their text and
store the mapping under `ResponseMetadata` in the result. -/
def QueryParser.inject_response_metadata (node : Dyn) (inject_into : Dyn) :
    Except PyErr Dyn := do
  let mapping ← build_name_to_xml_node node
  match dictGetS mapping "ResponseMetadata" with
  | some child_node => do
      let sub ← build_name_to_xml_node child_node
      let sub2 ← sub.mapM (fun p =>
        match p.2 with
        | .node n => pure (p.1, optToDyn n.text)
        | _ => Except.error (.attributeError "text"))
      match inject_into with
      | .dict d => pure (.dict (dictSetS d "ResponseMetadata" (.dict sub2)))
      | _ => throw (.typeError "object does not support item assignment")
  | Option.none => pure inject_into

/-- `EC2QueryParser._inject_response_metadata`: promote the top-level
`requestId` (lowercase) text into `ResponseMetadata.RequestId`. -/
def EC2QueryParser.inject_response_metadata (node : Dyn) (inject_into : Dyn) :
    Except PyErr Dyn := do
  let mapping ← build_name_to_xml_node node
  match dictGetS mapping "requestId" with
  | some child_node =>
      match child_node with
      | .node n =>
          match inject_into with
          | .dict d =>
              pure (.dict (dictSetS d "ResponseMetadata"
                (.dict [(.str "RequestId", optToDyn n.text)])))
          | _ => throw (.typeError "object does not support item assignment")
      | _ => throw (.attributeError "text")
  | Option.none => pure inject_into

/-- `QueryParser._do_parse`: optionally descend into the result wrapper,
decode the shape against the root, then inject the response metadata. -/
def QueryParser.do_parse (resp : XmlResponse) (shape : Option Shape) :
    Except PyErr Dyn := do
  let root := resp.body
  match shape with
  | some shape0 => do
      let start ←
        match shape0.serialization.resultWrapper with
        | some w => QueryParser.find_result_wrapped_shape w (.node root)
        | Option.none => pure (.node root)
      let parsed ← parse_shape .query shape0 start
      QueryParser.inject_response_metadata (.node root) parsed
  | Option.none => QueryParser.inject_response_metadata (.node root) (.dict [])

/-- `ResponseParser.parse` for the `query` protocol: status at least 301
selects the error path. -/
def QueryParser.parse (resp : XmlResponse) (shape : Option Shape) : Except PyErr Dyn :=
  if resp.status_code ≥ 301 then QueryParser.do_error_parse resp
  else QueryParser.do_parse resp shape

/-- `EC2QueryParser._do_error_parse`: the Query error parse, then rename the
top-level `RequestID` into `ResponseMetadata.RequestId` and unwrap the
top-level `Errors` wrapper down to its single `Error` child (`KeyError` when
either is absent). -/
def EC2QueryParser.do_error_parse (resp : XmlResponse) : Except PyErr Dyn := do
  let original ← QueryParser.do_error_parse resp
  match original with
  | .dict d => do
      let (rid, d1) ←
        match dictPopS d "RequestID" with
        | some p => pure p
        | Option.none => throw (.keyError "RequestID")
      let d2 := dictSetS d1 "ResponseMetadata" (.dict [(.str "RequestId", rid)])
      let (errors, d3) ←
        match dictPopS d2 "Errors" with
        | some p => pure p
        | Option.none => throw (.keyError "Errors")
      let errVal ←
        match errors with
        | .dict ed =>
            match dictGetS ed "Error" with
            | some e => pure e
            | Option.none => throw (.keyError "Error")
        | _ => throw (.typeError "value is not subscriptable")
      pure (.dict (dictSetS d3 "Error" errVal))
  | _ => throw (.attributeError "pop")

/-- `EC2QueryParser._do_parse` is inherited from `QueryParser` but resolves
`self._inject_response_metadata` to the EC2 override. -/
def EC2QueryParser.do_parse (resp : XmlResponse) (shape : Option Shape) :
    Except PyErr Dyn := do
  let root := resp.body
  match shape with
  | some shape0 => do
      let start ←
        match shape0.serialization.resultWrapper with
        | some w => QueryParser.find_result_wrapped_shape w (.node root)
        | Option.none => pure (.node root)
      let parsed ← parse_shape .ec2 shape0 start
      EC2QueryParser.inject_response_metadata (.node root) parsed
  | Option.none => EC2QueryParser.inject_response_metadata (.node root) (.dict [])

/-- `ResponseParser.parse` for the `ec2` protocol. -/
def EC2QueryParser.parse (resp : XmlResponse) (shape : Option Shape) : Except PyErr Dyn :=
  if resp.status_code ≥ 301 then EC2QueryParser.do_error_parse resp
  else EC2QueryParser.do_parse resp shape

/-- An HTTP response for the `json` protocol.  `body` is the value that the
external `json.loads` tokenizer yields for the UTF-8 decoded body bytes. -/
structure JsonResponse where
  status_code : Int
  headers : List (String × String)
  body : Dyn

/-- `JSONParser._inject_response_metadata`: when the `x-amzn-requestid`
header is present, `parsed.setdefault('ResponseMetadata', \x7b\x7d)['RequestId']`
is assigned from it. -/
def JSONParser.inject_response_metadata (parsed : Dyn) (headers : List (String × String)) :
    Except PyErr Dyn :=
  match headers.lookup "x-amzn-requestid" with
  | some rid =>
      match parsed with
      | .dict d =>
          match dictGetS d "ResponseMetadata" with
          | some (.dict rm) =>
              .ok (.dict (dictSetS d "ResponseMetadata"
                (.dict (dictSetS rm "RequestId" (.str rid)))))
          | some _ => .error (.typeError "object does not support item assignment")
          | Option.none =>
              .ok (.dict (d ++ [(.str "ResponseMetadata",
                .dict [(.str "RequestId", .str rid)])]))
      | _ => .error (.attributeError "setdefault")
  | Option.none => .ok parsed

/-- The `Code` extraction of `JSONParser._do_error_parse`: `__type` with
everything up to and including the last `#` stripped. -/
def JSONParser.error_code (s : String) : String :=
  if strContains s '#' then (splitChar '#' s).getLastD s else s

/-- `JSONParser._do_error_parse`: `Message` from the `message` or `Message`
key, `Code` from `__type` (omitted when absent), metadata injected from the
`x-amzn-requestid` header. -/
def JSONParser.do_error_parse (resp : JsonResponse) : Except PyErr Dyn := do
  match resp.body with
  | .dict kvs => do
      let msg := (dictGetS kvs "message").getD ((dictGetS kvs "Message").getD .none)
      let inner : List (Dyn × Dyn) := [(.str "Message", msg)]
      let inner ←
        match dictGetS kvs "__type" with
        | some code =>
            match code with
            | .none => pure inner
            | .str cs => pure (dictSetS inner "Code" (.str (JSONParser.error_code cs)))
            | _ => throw (.typeError "argument is not iterable")
        | Option.none => pure inner
      let error : Dyn := .dict [(.str "Error", .dict inner),
                                (.str "ResponseMetadata", .dict [])]
      JSONParser.inject_response_metadata error resp.headers
  | _ => throw (.attributeError "get")

/-- `JSONParser._do_parse`: decode the whole JSON body against the shape and
inject the metadata (a missing shape raises on the `type_name` access). -/
def JSONParser.do_parse (resp : JsonResponse) (shape : Option Shape) :
    Except PyErr Dyn := do
  match shape with
  | some s => do
      let parsed ← parse_shape .json s resp.body
      JSONParser.inject_response_metadata parsed resp.headers
  | Option.none => throw (.attributeError "type_name")

/-- `ResponseParser.parse` for the `json` protocol. -/
def JSONParser.parse (resp : JsonResponse) (shape : Option Shape) : Except PyErr Dyn :=
  if resp.status_code ≥ 301 then JSONParser.do_error_parse resp
  else JSONParser.do_parse resp shape

/-- `BaseRestParser._populate_response_metadata`: prefer `x-amzn-requestid`;
else `x-amz-request-id` plus `x-amz-id-2` (default empty) as `HostId`. -/
def BaseRestParser.populate_response_metadata (headers : List (String × String)) :
    List (Dyn × Dyn) :=
  match headers.lookup "x-amzn-requestid" with
  | some rid => [(.str "RequestId", .str rid)]
  | Option.none =>
      match headers.lookup "x-amz-request-id" with
      | some rid =>
          [(.str "RequestId", .str rid),
           (.str "HostId", .str ((headers.lookup "x-amz-id-2").getD ""))]
      | Option.none => []

/-- `BaseRestParser._parse_header_map`: copy every header whose name
case-insensitively starts with the declared prefix, keyed by the header name
with the prefix stripped. -/
def BaseRestParser.parse_header_map (shape : Shape) (headers : List (String × String)) :
    List (Dyn × Dyn) :=
  let pfx := strToLower ((shape.serialization.name).getD "")
  headers.foldl (fun parsed h =>
    if strStartsWith (strToLower h.1) pfx then
      dictSetS parsed (h.1.drop pfx.length) (.str h.2)
    else parsed) []

/-- The loop body of `BaseRestParser._parse_non_payload_attrs` (named so the
fold can be reasoned about step by step). -/
def BaseRestParser.non_payload_step (v : Variant) (status_code : Int)
    (headers : List (String × String)) (acc : List (Dyn × Dyn))
    (nm : String × Shape) : Except PyErr (List (Dyn × Dyn)) := do
  match nm.2.serialization.location with
  | Option.none => pure acc
  | some loc =>
    if loc = "statusCode" then do
      let pv ← parse_shape v nm.2 (.int status_code)
      pure (dictSetS acc nm.1 pv)
    else if loc = "headers" then
      pure (dictSetS acc nm.1 (.dict (BaseRestParser.parse_header_map nm.2 headers)))
    else if loc = "header" then
      match headers.lookup ((nm.2.serialization.name).getD nm.1) with
      | some hv => do
          let pv ← parse_shape v nm.2 (.str hv)
          pure (dictSetS acc nm.1 pv)
      | Option.none => pure acc
    else pure acc

/-- `BaseRestParser._parse_non_payload_attrs`: members with a declared
location are filled from the status code or the headers; a `header` member
whose header is absent is skipped. -/
def BaseRestParser.parse_non_payload_attrs (v : Variant) (status_code : Int)
    (headers : List (String × String)) (member_shapes : List (String × Shape))
    (final0 : List (Dyn × Dyn)) : Except PyErr (List (Dyn × Dyn)) :=
  member_shapes.foldlM (BaseRestParser.non_payload_step v status_code headers) final0

/-- `BaseRestParser._parse_payload`: a declared payload member of string or
blob kind receives the whole (UTF-8 decoded) body verbatim; any other payload
member decodes the tokenised body against its sub-shape; with no declared
payload the whole body decodes against the whole shape and is merged in. -/
def BaseRestParser.parse_payload (v : Variant) (bodyText : String)
    (initialBody : Except PyErr Dyn) (shape : Shape)
    (member_shapes : List (String × Shape)) (final0 : List (Dyn × Dyn)) :
    Except PyErr (List (Dyn × Dyn)) := do
  match shape.serialization.payload with
  | some payload_member_name =>
      match member_shapes.lookup payload_member_name with
      | Option.none => throw (.keyError payload_member_name)
      | some body_shape =>
        if body_shape.type_name = "string" || body_shape.type_name = "blob" then
          -- streaming passthrough: the raw body, decoded from bytes to text
          pure (dictSetS final0 payload_member_name (.str bodyText))
        else do
          let original_parsed ← initialBody
          let pv ← parse_shape v body_shape original_parsed
          pure (dictSetS final0 payload_member_name pv)
  | Option.none => do
      let original_parsed ← initialBody
      let body_parsed ← parse_shape v shape original_parsed
      match body_parsed with
      | .dict bd => pure (pyUpdate final0 bd)
      | _ => throw (.typeError "update expects a mapping")

/-- `BaseRestParser._do_parse`: response metadata first, then non-payload
attributes, then the payload. -/
def BaseRestParser.do_parse (v : Variant) (status_code : Int)
    (headers : List (String × String)) (bodyText : String)
    (initialBody : Except PyErr Dyn) (shape : Option Shape) : Except PyErr Dyn := do
  let final0 : List (Dyn × Dyn) :=
    [(.str "ResponseMetadata", .dict (BaseRestParser.populate_response_metadata headers))]
  match shape with
  | Option.none => pure (.dict final0)
  | some s => do
      let member_shapes ← s.membersE
      let f1 ← BaseRestParser.parse_non_payload_attrs v status_code headers member_shapes final0
      let f2 ← BaseRestParser.parse_payload v bodyText initialBody s member_shapes f1
      pure (.dict f2)

/-- A rest-json body: empty, tokenisable JSON content, or non-JSON content
(`text` is the UTF-8 decode of the body bytes; `j` is the `json.loads`
value). -/
inductive RestJsonBody where
  | empty
  | jsonContent (text : String) (j : Dyn)
  | rawContent (text : String)

def RestJsonBody.text : RestJsonBody → String
  | .empty => ""
  | .jsonContent t _ => t
  | .rawContent t => t

structure RestJsonResponse where
  status_code : Int
  headers : List (String × String)
  body : RestJsonBody

/-- `RestJSONParser._initial_body_parse`: an empty body parses to an empty
mapping, otherwise `json.loads` (external tokenizer). -/
def RestJSONParser.initial_body_parse : RestJsonBody → Except PyErr Dyn
  | .empty => .ok (.dict [])
  | .jsonContent _ j => .ok j
  | .rawContent _ => .error .jsonDecodeError

/-- `RestJSONParser._do_error_parse`: `Message` from the `message` key
(default empty), `Code` from the `x-amzn-errortype` header truncated at the
first `:`. -/
def RestJSONParser.do_error_parse (resp : RestJsonResponse) : Except PyErr Dyn := do
  let body ← RestJSONParser.initial_body_parse resp.body
  match body with
  | .dict kvs => do
      let inner : List (Dyn × Dyn) :=
        [(.str "Message", (dictGetS kvs "message").getD (.str ""))]
      let inner :=
        match resp.headers.lookup "x-amzn-errortype" with
        | some code => dictSetS inner "Code" (.str ((splitChar ':' code).headD code))
        | Option.none => inner
      pure (.dict [(.str "Error", .dict inner), (.str "ResponseMetadata", .dict [])])
  | _ => throw (.attributeError "get")

/-- `BaseRestParser._do_parse` for the `rest-json` protocol. -/
def RestJSONParser.do_parse (resp : RestJsonResponse) (shape : Option Shape) :
    Except PyErr Dyn :=
  BaseRestParser.do_parse .restJson resp.status_code resp.headers resp.body.text
    (RestJSONParser.initial_body_parse resp.body) shape

/-- `ResponseParser.parse` for the `rest-json` protocol. -/
def RestJSONParser.parse (resp : RestJsonResponse) (shape : Option Shape) :
    Except PyErr Dyn :=
  if resp.status_code ≥ 301 then RestJSONParser.do_error_parse resp
  else RestJSONParser.do_parse resp shape

/-- A rest-xml body: empty, tokenisable XML content, or non-XML content. -/
inductive RestXmlBody where
  | empty
  | xmlContent (text : String) (root : XmlNode)
  | rawContent (text : String)

def RestXmlBody.text : RestXmlBody → String
  | .empty => ""
  | .xmlContent t _ => t
  | .rawContent t => t

structure RestXmlResponse where
  status_code : Int
  headers : List (String × String)
  body : RestXmlBody

/-- `RestXMLParser._initial_body_parse`: an empty body parses to the empty
element `Element('')`, otherwise the DOM root (external tokenizer). -/
def RestXMLParser.initial_body_parse : RestXmlBody → Except PyErr Dyn
  | .empty => .ok (.node (XmlNode.mk "" Option.none []))
  | .xmlContent _ root => .ok (.node root)
  | .rawContent _ => .error .xmlSyntaxError

/-- `RestXMLParser._parse_error_from_http_status`: synthesize the error
purely from the HTTP status and headers. -/
def RestXMLParser.parse_error_from_http_status (resp : RestXmlResponse) : Dyn :=
  .dict [(.str "Error",
           .dict [(.str "Code", .str (toString resp.status_code)),
                  (.str "Message",
                   .str ((http_client_responses.lookup resp.status_code).getD ""))]),
         (.str "ResponseMetadata",
           .dict [(.str "RequestId",
                   .str ((resp.headers.lookup "x-amz-request-id").getD "")),
                  (.str "HostId",
                   .str ((resp.headers.lookup "x-amz-id-2").getD ""))])]

/-- `RestXMLParser._parse_error_from_body`: leaf-collapse the body; a root
tagged `Error` is the S3 style (header metadata, duplicate ids dropped);
otherwise promote a top-level `RequestId` as in Query. -/
def RestXMLParser.parse_error_from_body (resp : RestXmlResponse) : Except PyErr Dyn := do
  let root ←
    match resp.body with
    | .xmlContent _ r => pure r
    | .rawContent _ => throw .xmlSyntaxError
    | .empty => throw .xmlSyntaxError
  let parsed0 ← build_name_to_xml_node (.node root)
  let parsed ← replace_nodes (XmlNode.depth root + 1) parsed0
  if root.tag = "Error" then
    let metadata := BaseRestParser.populate_response_metadata resp.headers
    let p1 := match dictPopS parsed "RequestId" with
              | some pr => pr.2
              | Option.none => parsed
    let p2 := match dictPopS p1 "HostId" with
              | some pr => pr.2
              | Option.none => p1
    pure (.dict [(.str "Error", .dict p2), (.str "ResponseMetadata", .dict metadata)])
  else
    match dictPopS parsed "RequestId" with
    | some (rid, rest) =>
        pure (.dict (dictSetS rest "ResponseMetadata" (.dict [(.str "RequestId", rid)])))
    | Option.none => pure (.dict parsed)

/-- `RestXMLParser._do_error_parse`: a non-empty body is parsed, an empty
body is synthesized from the HTTP status. -/
def RestXMLParser.do_error_parse (resp : RestXmlResponse) : Except PyErr Dyn :=
  match resp.body with
  | .empty => .ok (RestXMLParser.parse_error_from_http_status resp)
  | _ => RestXMLParser.parse_error_from_body resp

/-- `BaseRestParser._do_parse` for the `rest-xml` protocol. -/
def RestXMLParser.do_parse (resp : RestXmlResponse) (shape : Option Shape) :
    Except PyErr Dyn :=
  BaseRestParser.do_parse .restXml resp.status_code resp.headers resp.body.text
    (RestXMLParser.initial_body_parse resp.body) shape

/-- `ResponseParser.parse` for the `rest-xml` protocol. -/
def RestXMLParser.parse (resp : RestXmlResponse) (shape : Option Shape) :
    Except PyErr Dyn :=
  if resp.status_code ≥ 301 then RestXMLParser.do_error_parse resp
  else RestXMLParser.do_parse resp shape

/-- The inner pair loop of `BaseXMLResponseParser._handle_map` (named copy of
the fold step inlined in `parse_shape`, for reasoning). -/
def xmlMapInner (v : Variant) (key_shape value_shape : Shape) (kname vname : String)
    (kv : Option Dyn × Option Dyn) (single_pair : Dyn) :
    Except PyErr (Option Dyn × Option Dyn) := do
  let tag_name ← node_tag single_pair
  if tag_name = kname then do
    let k ← parse_shape v key_shape single_pair
    pure (some k, kv.2)
  else if tag_name = vname then do
    let w ← parse_shape v value_shape single_pair
    pure (kv.1, some w)
  else
    throw (.responseParserError ("Unknown tag: " ++ tag_name))

/-- The per-entry step of `BaseXMLResponseParser._handle_map` (named copy of
the fold step inlined in `parse_shape`). -/
def xmlMapEntryStep (v : Variant) (key_shape value_shape : Shape) (kname vname : String)
    (st : List (Dyn × Dyn) × Option Dyn × Option Dyn) (keyval_node : Dyn) :
    Except PyErr (List (Dyn × Dyn) × Option Dyn × Option Dyn) := do
  let pairs ← keyval_node.iter
  let kv ← pairs.foldlM (xmlMapInner v key_shape value_shape kname vname) (st.2.1, st.2.2)
  match kv.2 with
  | Option.none => throw (.unboundLocal "val_name")
  | some vv =>
    match kv.1 with
    | Option.none => throw (.unboundLocal "key_name")
    | some kk => do
      let d ← pyDictSet st.1 kk vv
      pure (d, some kk, some vv)

/-- `BaseXMLResponseParser._handle_map` as a standalone function (definitionally
equal to the map branch of `parse_shape` for the XML variants). -/
def xml_handle_map (v : Variant) (key_shape value_shape : Shape) (node : Dyn) :
    Except PyErr Dyn := do
  let key_location_name := pyOr key_shape.serialization.name "key"
  let value_location_name := pyOr value_shape.serialization.name "value"
  let entries ← node.iter
  let st ← entries.foldlM
    (xmlMapEntryStep v key_shape value_shape key_location_name value_location_name)
    ([], Option.none, Option.none)
  pure (.dict st.1)

/-- The EC2 error body of the spec's example, with the code, message and
request id as parameters. -/
def ec2ErrorBody (c m r : String) : XmlNode :=
  XmlNode.mk "Response" Option.none
    [XmlNode.mk "Errors" Option.none
      [XmlNode.mk "Error" Option.none
        [XmlNode.mk "Code" (some c) [], XmlNode.mk "Message" (some m) []]],
     XmlNode.mk "RequestID" (some r) []]

/-- A standard wrapped Query error body. -/
def queryStdErrorBody (c m r : String) : XmlNode :=
  XmlNode.mk "ErrorResponse" Option.none
    [XmlNode.mk "Error" Option.none
      [XmlNode.mk "Code" (some c) [], XmlNode.mk "Message" (some m) []],
     XmlNode.mk "RequestId" (some r) []]

/-- An output shape declaring a blob payload member `Data`. -/
def blobPayloadShape : Shape :=
  .struct { payload := some "Data" } [("Data", .scalar .blob {})]

/-- A non-payload member whose declared location the REST attribute extractor
can always process: `statusCode` members of integer kind, `header` members of
string kind (the kinds these members have in the service models). -/
def benignMember (nm : String × Shape) : Prop :=
  match nm.2.serialization.location with
  | Option.none => True
  | some loc =>
      (loc = "statusCode" → ∃ ser, nm.2 = .scalar .integer ser ∨ nm.2 = .scalar .long ser) ∧
      (loc = "header" → ∃ ser, nm.2 = .scalar .string ser ∨ nm.2 = .scalar .character ser)

theorem parse_shape_map_xml (v : Variant) (hv : v = .query ∨ v = .ec2 ∨ v = .restXml)
    (ser : Ser) (ks vs : Shape) (node : Dyn) :
    parse_shape v (.map ser ks vs) node = xml_handle_map v ks vs node := by
  rcases hv with h | h | h <;> subst h <;> rfl

theorem okBind {a b : Type} (x : a) (f : a → Except PyErr b) :
    (Except.ok x >>= f) = f x := rfl

theorem exceptBindPure {a b : Type} (mx : Except PyErr a) (g : a → b) :
    (mx >>= fun x => pure (g x)) = mx.map g := by cases mx <;> rfl

theorem mapM_singleton (f : Dyn → Except PyErr Dyn) (x : Dyn) :
    List.mapM f [x] = (f x).map (fun b => [b]) := by
  cases h : f x <;> simp [List.mapM, List.mapM.loop, h, Except.map]

theorem handle_blob_bytes (v : Variant) (input : Dyn) (d : Dyn)
    (h : handle_scalar v .blob input = .ok d) : d.isBytes = true := by
  cases v <;> cases input <;>
    simp only [handle_scalar, QueryParser.handle_blob, BaseJSONParser.handle_blob] at h <;>
    try exact Except.noConfusion h
  all_goals
    first
    | (rename_i n
       rcases ht : n.text with _ | s <;> simp only [ht] at h
       · exact Except.noConfusion h
       · rcases hb : b64decode s with e | bs <;> simp only [hb, Except.map] at h
         · exact Except.noConfusion h
         · injection h with h1; subst h1; rfl)
    | (rename_i s
       rcases hb : b64decode s with e | bs <;> simp only [hb, Except.map] at h
       · exact Except.noConfusion h
       · injection h with h1; subst h1; rfl)

/-- C1 (code bug): the `parse` docstring promises that `ResponseMetadata` with a
`RequestId` key is always present, but for the `json` protocol an error
response whose headers lack `x-amzn-requestid` yields a `ResponseMetadata`
mapping that is empty — `RequestId` is absent. -/
theorem C1_theorem :
    JSONParser.parse { status_code := 400, headers := [], body := .dict [] } Option.none =
      .ok (.dict [(.str "Error", .dict [(.str "Message", Dyn.none)]),
                  (.str "ResponseMetadata", .dict [])]) ∧
    dictGetS [] "RequestId" = Option.none := ⟨rfl, rfl⟩

/-- C2 (counterexample): for the `query` variant with status 400 and the
well-formed body `<Foo><Bar>x</Bar></Foo>`, the returned mapping is
`\x7b"Bar": "x"\x7d` — it contains neither `Error` nor `ResponseMetadata`, so the
claim that every error result contains exactly those two keys is false. -/
theorem C2_counterexample :
    QueryParser.parse
        ⟨400, [], XmlNode.mk "Foo" Option.none [XmlNode.mk "Bar" (some "x") []]⟩
        Option.none =
      .ok (.dict [(.str "Bar", .str "x")]) := rfl

/-- C3 (counterexample): a rest-json response whose shape declares the blob
member `Data` as payload assigns the body *character-decoded as text* to that
member: the decoded value is the string `"hello"`, not raw bytes, so the claim
that a blob payload member receives raw bytes with no character decoding is
false (the source does `body.decode('utf-8')` on this path). -/
theorem C3_counterexample :
    RestJSONParser.parse { status_code := 200, headers := [], body := .rawContent "hello" }
        (some blobPayloadShape) =
      .ok (.dict [(.str "ResponseMetadata", .dict []), (.str "Data", .str "hello")]) ∧
    (Dyn.str "hello").isBytes = false := ⟨rfl, rfl⟩

/-- C3 (amended): the XML and JSON blob *handlers* always yield raw bytes
(base64-decoded, never character-decoded) for every variant and every input
on which they succeed; but a REST payload member of kind string or blob
receives the entire body character-decoded as UTF-8 text, verbatim, with no
structural decode. -/
theorem C3_theorem :
    (∀ (v : Variant) (ser : Ser) (input : Dyn) (d : Dyn),
        parse_shape v (.scalar .blob ser) input = .ok d → d.isBytes = true)
    ∧ (∀ (v : Variant) (bodyText : String) (initialBody : Except PyErr Dyn) (shape : Shape)
         (member_shapes : List (String × Shape)) (final0 : List (Dyn × Dyn))
         (p : String) (bshape : Shape),
        shape.serialization.payload = some p →
        member_shapes.lookup p = some bshape →
        (bshape.type_name = "string" ∨ bshape.type_name = "blob") →
        BaseRestParser.parse_payload v bodyText initialBody shape member_shapes final0 =
          .ok (dictSetS final0 p (.str bodyText))) := by
  constructor
  · intro v ser input d h
    exact handle_blob_bytes v input d h
  · intro v bodyText initialBody shape member_shapes final0 p bshape h1 h2 h3
    rcases h3 with h | h <;>
      simp [BaseRestParser.parse_payload, h1, h2, h, pure, Except.pure]

theorem C3_witness :
    (Dyn.bytes [1, 2, 3]).isBytes = true ∧
    BaseRestParser.parse_payload .restJson "hello" (.ok (.dict [])) blobPayloadShape
        [("Data", .scalar .blob {})] [] = .ok (dictSetS [] "Data" (.str "hello")) :=
  ⟨C3_theorem.1 .query {} (.node (XmlNode.mk "b" (some "AQID") [])) (.bytes [1, 2, 3]) rfl,
   C3_theorem.2 .restJson "hello" (.ok (.dict [])) blobPayloadShape
     [("Data", .scalar .blob {})] [] "Data" (.scalar .blob {}) rfl rfl (Or.inr rfl)⟩

/-- C4 (confirmed): for the XML variants, a flattened list shape applied to a
single (non-sequence) indexed node decodes to the one-element sequence of the
decoded member — never a bare scalar — and applied to an indexed sequence it
decodes element-wise in order. -/
theorem C4_theorem (v : Variant) (hv : v = .query ∨ v = .ec2 ∨ v = .restXml)
    (ser : Ser) (hf : ser.flattened = true) (member : Shape) (n : XmlNode) (xs : List Dyn) :
    parse_shape v (.list ser member) (.node n) =
      (parse_shape v member (.node n)).map (fun d => .list [d]) ∧
    parse_shape v (.list ser member) (.list xs) =
      (xs.mapM (fun item => parse_shape v member item)).map Dyn.list := by
  rcases hv with h | h | h <;> subst h <;>
  refine ⟨?_, ?_⟩ <;>
    simp only [parse_shape, hf, Dyn.isList, Bool.not_false, Bool.not_true, Bool.and_true,
      Bool.and_false, Bool.true_and, if_true, if_false, Dyn.iter, okBind] <;>
    first
    | rfl
    | ((cases hres : parse_shape Variant.query member (Dyn.node n) <;>
        simp [List.mapM, List.mapM.loop, hres, okBind, Except.map]); done)
    | ((cases hres : parse_shape Variant.ec2 member (Dyn.node n) <;>
        simp [List.mapM, List.mapM.loop, hres, okBind, Except.map]); done)
    | ((cases hres : parse_shape Variant.restXml member (Dyn.node n) <;>
        simp [List.mapM, List.mapM.loop, hres, okBind, Except.map]); done)

theorem C4_witness :
    parse_shape .query (.list { flattened := true } (.scalar .string {}))
        (.node (XmlNode.mk "item" (some "x") [])) =
      (parse_shape .query (.scalar .string {})
          (.node (XmlNode.mk "item" (some "x") []))).map (fun d => .list [d]) ∧
    parse_shape .query (.list { flattened := true } (.scalar .string {}))
        (.list [.node (XmlNode.mk "item" (some "a") []),
                .node (XmlNode.mk "item" (some "b") [])]) =
      (([.node (XmlNode.mk "item" (some "a") []),
         .node (XmlNode.mk "item" (some "b") [])].mapM
          (fun item => parse_shape .query (.scalar .string {}) item))).map Dyn.list :=
  C4_theorem .query (Or.inl rfl) { flattened := true } rfl (.scalar .string {})
    (XmlNode.mk "item" (some "x") [])
    [.node (XmlNode.mk "item" (some "a") []), .node (XmlNode.mk "item" (some "b") [])]

/-- C7 (confirmed): for the rest-xml variant on the error path with an empty
body, the result is synthesized purely from the HTTP status and headers:
`Error.Code` is the stringified status, `Error.Message` the standard reason
phrase for that status, and `ResponseMetadata` carries `RequestId`/`HostId`
from the `x-amz-request-id`/`x-amz-id-2` headers, defaulting to `""`. -/
theorem C7_theorem (status : Int) (headers : List (String × String))
    (h : status ≥ 301) :
    RestXMLParser.parse { status_code := status, headers := headers, body := .empty }
        Option.none =
      .ok (.dict [(.str "Error",
             .dict [(.str "Code", .str (toString status)),
                    (.str "Message",
                     .str ((http_client_responses.lookup status).getD ""))]),
            (.str "ResponseMetadata",
             .dict [(.str "RequestId", .str ((headers.lookup "x-amz-request-id").getD "")),
                    (.str "HostId", .str ((headers.lookup "x-amz-id-2").getD ""))])]) := by
  unfold RestXMLParser.parse
  rw [if_pos h]
  rfl

theorem C7_witness :
    ((404 : Int) ≥ 301) ∧
    RestXMLParser.parse { status_code := 404, headers := [], body := .empty } Option.none =
      .ok (.dict [(.str "Error",
             .dict [(.str "Code", .str "404"), (.str "Message", .str "Not Found")]),
            (.str "ResponseMetadata",
             .dict [(.str "RequestId", .str ""), (.str "HostId", .str "")])]) :=
  ⟨by norm_num, C7_theorem 404 [] (by norm_num)⟩

theorem errBind {a b : Type} (e : PyErr) (f : a → Except PyErr b) :
    (Except.error e >>= f) = .error e := rfl

theorem throwEq {a : Type} (e : PyErr) : (throw e : Except PyErr a) = .error e := rfl

theorem foldlM_append_except {a b : Type} (f : b → a → Except PyErr b) (l1 l2 : List a)
    (init : b) :
    List.foldlM f init (l1 ++ l2) =
      (List.foldlM f init l1 >>= fun m => List.foldlM f m l2) := by
  induction l1 generalizing init with
  | nil => simp [List.foldlM]
  | cons x xs ih =>
      simp only [List.cons_append, List.foldlM_cons]
      cases h : f init x <;> simp [h, ih]

theorem xmlMapEntryStep_wf (v : Variant) (ks vs : Shape) (kname vname : String)
    (hnv : vname ≠ kname) (etag : String) (etext : Option String)
    (kc vc : XmlNode) (k w : Dyn)
    (hkt : stripNamespace kc.tag = kname) (hvt : stripNamespace vc.tag = vname)
    (hk : parse_shape v ks (.node kc) = .ok k)
    (hw : parse_shape v vs (.node vc) = .ok w)
    (hh : k.isHashable = true)
    (d0 : List (Dyn × Dyn)) (k0 v0 : Option Dyn) :
    xmlMapEntryStep v ks vs kname vname (d0, k0, v0)
        (.node (XmlNode.mk etag etext [kc, vc])) =
      .ok (dictSetK d0 k w, some k, some w) := by
  simp [xmlMapEntryStep, Dyn.iter, XmlNode.children, List.foldlM, xmlMapInner,
    node_tag, hkt, hvt, hnv, hk, hw, pyDictSet, hh, okBind]

theorem xmlMapFold_wf (v : Variant) (ks vs : Shape) (kname vname : String)
    (hnv : vname ≠ kname) (etag : String) (etext : Option String) :
    ∀ (ps : List ((XmlNode × XmlNode) × Dyn × Dyn)),
      (∀ q ∈ ps, stripNamespace q.1.1.tag = kname ∧ stripNamespace q.1.2.tag = vname ∧
        parse_shape v ks (.node q.1.1) = .ok q.2.1 ∧
        parse_shape v vs (.node q.1.2) = .ok q.2.2 ∧ q.2.1.isHashable = true) →
      ∀ (d0 : List (Dyn × Dyn)) (k0 v0 : Option Dyn),
      ∃ kl vl,
        List.foldlM (xmlMapEntryStep v ks vs kname vname) (d0, k0, v0)
            (ps.map (fun q => Dyn.node (XmlNode.mk etag etext [q.1.1, q.1.2]))) =
          .ok (ps.foldl (fun d q => dictSetK d q.2.1 q.2.2) d0, kl, vl) := by
  intro ps
  induction ps with
  | nil => intro _ d0 k0 v0; exact ⟨k0, v0, rfl⟩
  | cons q rest ih =>
      intro hwf d0 k0 v0
      obtain ⟨h1, h2, h3, h4, h5⟩ := hwf q (by simp)
      have step := xmlMapEntryStep_wf v ks vs kname vname hnv etag etext q.1.1 q.1.2
        q.2.1 q.2.2 h1 h2 h3 h4 h5 d0 k0 v0
      obtain ⟨kl, vl, hrest⟩ := ih (fun r hr => hwf r (by simp [hr]))
        (dictSetK d0 q.2.1 q.2.2) (some q.2.1) (some q.2.2)
      refine ⟨kl, vl, ?_⟩
      simp [List.foldlM_cons, step, hrest, okBind]

theorem xmlMapEntryStep_badTag (v : Variant) (ks vs : Shape) (kname vname : String)
    (etag : String) (etext : Option String) (c : XmlNode) (ck : List XmlNode)
    (h1 : stripNamespace c.tag ≠ kname) (h2 : stripNamespace c.tag ≠ vname)
    (st : List (Dyn × Dyn) × Option Dyn × Option Dyn) :
    xmlMapEntryStep v ks vs kname vname st (.node (XmlNode.mk etag etext (c :: ck))) =
      .error (.responseParserError ("Unknown tag: " ++ stripNamespace c.tag)) := by
  simp [xmlMapEntryStep, Dyn.iter, XmlNode.children, List.foldlM, xmlMapInner,
    node_tag, h1, h2, okBind, errBind, throwEq]

theorem xmlMapEntryStep_noChildren (v : Variant) (ks vs : Shape) (kname vname : String)
    (etag : String) (etext : Option String) (d0 : List (Dyn × Dyn)) :
    xmlMapEntryStep v ks vs kname vname (d0, Option.none, Option.none)
        (.node (XmlNode.mk etag etext [])) = .error (.unboundLocal "val_name") := by
  simp [xmlMapEntryStep, Dyn.iter, XmlNode.children, List.foldlM, okBind, throwEq]

theorem xmlMapEntryStep_keyOnly (v : Variant) (ks vs : Shape) (kname vname : String)
    (etag : String) (etext : Option String) (kc : XmlNode) (k2 : Dyn)
    (hkt : stripNamespace kc.tag = kname)
    (hk : parse_shape v ks (.node kc) = .ok k2)
    (hh : k2.isHashable = true)
    (d0 : List (Dyn × Dyn)) (k0 v0 : Option Dyn) :
    xmlMapEntryStep v ks vs kname vname (d0, k0, v0)
        (.node (XmlNode.mk etag etext [kc])) =
      (match v0 with
       | some w => .ok (dictSetK d0 k2 w, some k2, some w)
       | Option.none => .error (.unboundLocal "val_name")) := by
  cases v0 <;>
    simp [xmlMapEntryStep, Dyn.iter, XmlNode.children, List.foldlM, xmlMapInner,
      node_tag, hkt, hk, pyDictSet, hh, okBind, throwEq]

theorem xmlMapEntryStep_valueOnly (v : Variant) (ks vs : Shape) (kname vname : String)
    (hnv : vname ≠ kname)
    (etag : String) (etext : Option String) (vc : XmlNode) (w2 : Dyn)
    (hvt : stripNamespace vc.tag = vname)
    (hw : parse_shape v vs (.node vc) = .ok w2)
    (d0 : List (Dyn × Dyn)) (k0 v0 : Option Dyn) :
    xmlMapEntryStep v ks vs kname vname (d0, k0, v0)
        (.node (XmlNode.mk etag etext [vc])) =
      (match k0 with
       | some k => (pyDictSet d0 k w2).map (fun d => (d, some k, some w2))
       | Option.none => .error (.unboundLocal "key_name")) := by
  cases k0 with
  | none =>
      simp [xmlMapEntryStep, Dyn.iter, XmlNode.children, List.foldlM, xmlMapInner,
        node_tag, hvt, hnv, hw, okBind, throwEq]
  | some k =>
      cases hp : pyDictSet d0 k w2 <;>
        simp [xmlMapEntryStep, Dyn.iter, XmlNode.children, List.foldlM, xmlMapInner,
          node_tag, hvt, hnv, hw, okBind, hp, Except.map, throwEq]

/-- C5 (confirmed): in an XML map decode, an entry child whose local tag name
matches neither the key shape's effective name (default `key`) nor the value
shape's (default `value`) raises the declared hard decode failure
(`ResponseParserError`), aborting the parse; entries carrying both decode and
accumulate into a key-to-value mapping built by in-place dict assignment, so
later occurrences of the same key overwrite earlier ones; in particular the
two-entry example body decodes to `\x7b"a": 1, "b": 2\x7d` and a duplicated key
keeps the last value. -/
theorem C5_theorem (v : Variant) (hv : v = .query ∨ v = .ec2 ∨ v = .restXml)
    (ser : Ser) (ks vs : Shape)
    (hnv : pyOr vs.serialization.name "value" ≠ pyOr ks.serialization.name "key")
    (mt : String) (mtext : Option String) (etag : String) (etext : Option String)
    (ps : List ((XmlNode × XmlNode) × Dyn × Dyn))
    (hwf : ∀ q ∈ ps,
      stripNamespace q.1.1.tag = pyOr ks.serialization.name "key" ∧
      stripNamespace q.1.2.tag = pyOr vs.serialization.name "value" ∧
      parse_shape v ks (.node q.1.1) = .ok q.2.1 ∧
      parse_shape v vs (.node q.1.2) = .ok q.2.2 ∧ q.2.1.isHashable = true)
    (c : XmlNode) (ck : List XmlNode)
    (hck : stripNamespace c.tag ≠ pyOr ks.serialization.name "key")
    (hcv : stripNamespace c.tag ≠ pyOr vs.serialization.name "value") :
    parse_shape v (.map ser ks vs)
        (.node (XmlNode.mk mt mtext
          (ps.map (fun q => XmlNode.mk etag etext [q.1.1, q.1.2])))) =
      .ok (.dict (ps.foldl (fun d q => dictSetK d q.2.1 q.2.2) []))
    ∧ parse_shape v (.map ser ks vs)
        (.node (XmlNode.mk mt mtext
          (ps.map (fun q => XmlNode.mk etag etext [q.1.1, q.1.2]) ++
           [XmlNode.mk etag etext (c :: ck)]))) =
      .error (.responseParserError ("Unknown tag: " ++ stripNamespace c.tag))
    ∧ parse_shape .query (.map {} (.scalar .string {}) (.scalar .integer {}))
        (.node (XmlNode.mk "Map" Option.none
          [XmlNode.mk "entry" Option.none
            [XmlNode.mk "key" (some "a") [], XmlNode.mk "value" (some "1") []],
           XmlNode.mk "entry" Option.none
            [XmlNode.mk "key" (some "b") [], XmlNode.mk "value" (some "2") []]])) =
      .ok (.dict [(.str "a", .int 1), (.str "b", .int 2)])
    ∧ parse_shape .query (.map {} (.scalar .string {}) (.scalar .integer {}))
        (.node (XmlNode.mk "Map" Option.none
          [XmlNode.mk "entry" Option.none
            [XmlNode.mk "key" (some "a") [], XmlNode.mk "value" (some "1") []],
           XmlNode.mk "entry" Option.none
            [XmlNode.mk "key" (some "a") [], XmlNode.mk "value" (some "2") []]])) =
      .ok (.dict [(.str "a", .int 2)]) := by
  obtain ⟨kl, vl, hfold⟩ := xmlMapFold_wf v ks vs
    (pyOr ks.serialization.name "key") (pyOr vs.serialization.name "value")
    hnv etag etext ps hwf [] Option.none Option.none
  refine ⟨?_, ?_, rfl, rfl⟩
  · rw [parse_shape_map_xml v hv]
    simp only [xml_handle_map, Dyn.iter, XmlNode.children, okBind, List.map_map,
      Function.comp_def, hfold]
    rfl
  · rw [parse_shape_map_xml v hv]
    simp only [xml_handle_map, Dyn.iter, XmlNode.children, okBind, List.map_append,
      List.map_map, List.map_cons, List.map_nil, Function.comp_def,
      foldlM_append_except, hfold]
    simp [List.foldlM, okBind, errBind,
      xmlMapEntryStep_badTag v ks vs _ _ etag etext c ck hck hcv]

theorem C5_witness :
    parse_shape .query (.map {} (.scalar .string {}) (.scalar .integer {}))
        (.node (XmlNode.mk "Map" Option.none
          [XmlNode.mk "entry" Option.none
            [XmlNode.mk "key" (some "a") [], XmlNode.mk "value" (some "1") []]])) =
      .ok (.dict [(.str "a", .int 1)])
    ∧ parse_shape .query (.map {} (.scalar .string {}) (.scalar .integer {}))
        (.node (XmlNode.mk "Map" Option.none
          [XmlNode.mk "entry" Option.none
            [XmlNode.mk "key" (some "a") [], XmlNode.mk "value" (some "1") []],
           XmlNode.mk "entry" Option.none [XmlNode.mk "bogus" (some "z") []]])) =
      .error (.responseParserError "Unknown tag: bogus") :=
  ⟨(C5_theorem .query (Or.inl rfl) {} (.scalar .string {}) (.scalar .integer {})
      (by decide) "Map" Option.none "entry" Option.none
      [((XmlNode.mk "key" (some "a") [], XmlNode.mk "value" (some "1") []),
        (.str "a", .int 1))]
      (by intro q hq; simp at hq; subst hq; exact ⟨rfl, rfl, rfl, rfl, rfl⟩)
      (XmlNode.mk "bogus" (some "z") []) [] (by decide) (by decide)).1,
   (C5_theorem .query (Or.inl rfl) {} (.scalar .string {}) (.scalar .integer {})
      (by decide) "Map" Option.none "entry" Option.none
      [((XmlNode.mk "key" (some "a") [], XmlNode.mk "value" (some "1") []),
        (.str "a", .int 1))]
      (by intro q hq; simp at hq; subst hq; exact ⟨rfl, rfl, rfl, rfl, rfl⟩)
      (XmlNode.mk "bogus" (some "z") []) [] (by decide) (by decide)).2.1⟩

/-- C10 (confirmed): in an XML map decode, a first entry lacking a key-tagged
or a value-tagged child fails with an *unhandled* `UnboundLocalError` (reading
the never-assigned `val_name`/`key_name` local), not the declared
`ResponseParserError`; and a later entry lacking one of the two silently
reuses the binding decoded in the preceding entry, because the per-entry
`key_name`/`val_name` locals persist across entry iterations. -/
theorem C10_theorem (v : Variant) (hv : v = .query ∨ v = .ec2 ∨ v = .restXml)
    (ser : Ser) (ks vs : Shape)
    (hnv : pyOr vs.serialization.name "value" ≠ pyOr ks.serialization.name "key")
    (mt : String) (mtext : Option String) (etag : String) (etext : Option String)
    (kc vc kc2 vc2 : XmlNode) (k w k2 w2 : Dyn)
    (hkt : stripNamespace kc.tag = pyOr ks.serialization.name "key")
    (hvt : stripNamespace vc.tag = pyOr vs.serialization.name "value")
    (hk : parse_shape v ks (.node kc) = .ok k)
    (hw : parse_shape v vs (.node vc) = .ok w)
    (hh : k.isHashable = true)
    (hkt2 : stripNamespace kc2.tag = pyOr ks.serialization.name "key")
    (hk2 : parse_shape v ks (.node kc2) = .ok k2)
    (hh2 : k2.isHashable = true)
    (hvt2 : stripNamespace vc2.tag = pyOr vs.serialization.name "value")
    (hw2 : parse_shape v vs (.node vc2) = .ok w2) :
    parse_shape v (.map ser ks vs)
        (.node (XmlNode.mk mt mtext [XmlNode.mk etag etext []])) =
      .error (.unboundLocal "val_name")
    ∧ parse_shape v (.map ser ks vs)
        (.node (XmlNode.mk mt mtext [XmlNode.mk etag etext [kc]])) =
      .error (.unboundLocal "val_name")
    ∧ parse_shape v (.map ser ks vs)
        (.node (XmlNode.mk mt mtext [XmlNode.mk etag etext [vc]])) =
      .error (.unboundLocal "key_name")
    ∧ parse_shape v (.map ser ks vs)
        (.node (XmlNode.mk mt mtext
          [XmlNode.mk etag etext [kc, vc], XmlNode.mk etag etext [kc2]])) =
      .ok (.dict (dictSetK (dictSetK [] k w) k2 w))
    ∧ parse_shape v (.map ser ks vs)
        (.node (XmlNode.mk mt mtext
          [XmlNode.mk etag etext [kc, vc], XmlNode.mk etag etext [vc2]])) =
      .ok (.dict (dictSetK (dictSetK [] k w) k w2)) := by
  have hstep1 := xmlMapEntryStep_wf v ks vs
    (pyOr ks.serialization.name "key") (pyOr vs.serialization.name "value")
    hnv etag etext kc vc k w hkt hvt hk hw hh [] Option.none Option.none
  refine ⟨?_, ?_, ?_, ?_, ?_⟩ <;> rw [parse_shape_map_xml v hv]
  · simp [xml_handle_map, Dyn.iter, XmlNode.children, List.foldlM, okBind, errBind,
      xmlMapEntryStep_noChildren]
  · simp [xml_handle_map, Dyn.iter, XmlNode.children, List.foldlM, okBind, errBind,
      xmlMapEntryStep_keyOnly v ks vs _ _ etag etext kc k hkt hk hh]
  · simp [xml_handle_map, Dyn.iter, XmlNode.children, List.foldlM, okBind, errBind,
      xmlMapEntryStep_valueOnly v ks vs _ _ hnv etag etext vc w hvt hw]
  · simp [xml_handle_map, Dyn.iter, XmlNode.children, List.foldlM, okBind, errBind,
      hstep1, xmlMapEntryStep_keyOnly v ks vs _ _ etag etext kc2 k2 hkt2 hk2 hh2]
  · simp [xml_handle_map, Dyn.iter, XmlNode.children, List.foldlM, okBind, errBind,
      hstep1, xmlMapEntryStep_valueOnly v ks vs _ _ hnv etag etext vc2 w2 hvt2 hw2,
      pyDictSet, hh, Except.map]

theorem C10_witness :
    parse_shape .query (.map {} (.scalar .string {}) (.scalar .integer {}))
        (.node (XmlNode.mk "Map" Option.none
          [XmlNode.mk "entry" Option.none [XmlNode.mk "key" (some "a") []]])) =
      .error (.unboundLocal "val_name")
    ∧ parse_shape .query (.map {} (.scalar .string {}) (.scalar .integer {}))
        (.node (XmlNode.mk "Map" Option.none
          [XmlNode.mk "entry" Option.none
            [XmlNode.mk "key" (some "a") [], XmlNode.mk "value" (some "1") []],
           XmlNode.mk "entry" Option.none [XmlNode.mk "key" (some "b") []]])) =
      .ok (.dict [(.str "a", .int 1), (.str "b", .int 1)]) :=
  ⟨(C10_theorem .query (Or.inl rfl) {} (.scalar .string {}) (.scalar .integer {})
      (by decide) "Map" Option.none "entry" Option.none
      (XmlNode.mk "key" (some "a") []) (XmlNode.mk "value" (some "1") [])
      (XmlNode.mk "key" (some "b") []) (XmlNode.mk "value" (some "9") [])
      (.str "a") (.int 1) (.str "b") (.int 9)
      rfl rfl rfl rfl rfl rfl rfl rfl rfl rfl).2.1,
   (C10_theorem .query (Or.inl rfl) {} (.scalar .string {}) (.scalar .integer {})
      (by decide) "Map" Option.none "entry" Option.none
      (XmlNode.mk "key" (some "a") []) (XmlNode.mk "value" (some "1") [])
      (XmlNode.mk "key" (some "b") []) (XmlNode.mk "value" (some "9") [])
      (.str "a") (.int 1) (.str "b") (.int 9)
      rfl rfl rfl rfl rfl rfl rfl rfl rfl rfl).2.2.2.1⟩

theorem keyEq_str_iff (d : Dyn) (s : String) : d.keyEq (.str s) = true ↔ d = .str s := by
  cases d <;> simp [Dyn.keyEq]

theorem dictGetS_cons (p : Dyn × Dyn) (d : List (Dyn × Dyn)) (x : String) :
    dictGetS (p :: d) x = if p.1.keyEq (.str x) then some p.2 else dictGetS d x := by
  by_cases hp : p.1.keyEq (.str x) = true <;> simp [dictGetS, List.find?_cons, hp]

theorem dictGetS_append (d1 d2 : List (Dyn × Dyn)) (x : String) :
    dictGetS (d1 ++ d2) x =
      (match dictGetS d1 x with
       | some w => some w
       | Option.none => dictGetS d2 x) := by
  induction d1 with
  | nil => simp [dictGetS]
  | cons p rest ih =>
      by_cases hp : p.1.keyEq (.str x) = true <;>
        simp [List.cons_append, dictGetS_cons, hp, ih]

theorem dictHasS_false_getS (d : List (Dyn × Dyn)) (k : String)
    (h : dictHasS d k = false) : dictGetS d k = Option.none := by
  induction d with
  | nil => rfl
  | cons p rest ih =>
      simp only [dictHasS, List.any_cons, Bool.or_eq_false_iff] at h
      simp [dictGetS_cons, h.1, ih (by simp [dictHasS, h.2])]

theorem dictSetS_absent (d : List (Dyn × Dyn)) (k : String) (v : Dyn)
    (h : dictHasS d k = false) : dictSetS d k v = d ++ [(.str k, v)] := by
  simp only [dictSetS, dictSetK, dictHasS] at h ⊢
  simp [h]

theorem keyEq_str_str (a b : String) : Dyn.keyEq (.str a) (.str b) = (a == b) := rfl

theorem dictGetS_map_repl_ne (k x : String) (v : Dyn) (h : ¬ (k == x) = true) :
    ∀ d : List (Dyn × Dyn),
    dictGetS (d.map (fun p => if p.1.keyEq (.str k) then (p.1, v) else p)) x =
      dictGetS d x := by
  intro d
  induction d with
  | nil => rfl
  | cons p rest ih =>
      by_cases hp : p.1.keyEq (.str k) = true
      · have hpk : p.1 = .str k := (keyEq_str_iff _ _).mp hp
        simp [dictGetS_cons, hp, hpk, keyEq_str_str, h, ih]
      · simp [dictGetS_cons, hp, ih]

theorem dictGetS_dictSetS_same (d : List (Dyn × Dyn)) (k : String) (v : Dyn) :
    dictGetS (dictSetS d k v) k = some v := by
  by_cases hany : d.any (fun p => p.1.keyEq (.str k)) = true
  · simp only [dictSetS, dictSetK, hany, if_true]
    induction d with
    | nil => simp at hany
    | cons p rest ih =>
        by_cases hp : p.1.keyEq (.str k) = true
        · simp [dictGetS_cons, hp]
        · have hrest : rest.any (fun q => q.1.keyEq (.str k)) = true := by
            simpa [List.any_cons, hp] using hany
          simp [dictGetS_cons, hp, ih hrest]
  · simp only [dictSetS, dictSetK, hany, if_false]
    have hget : dictGetS d k = Option.none :=
      dictHasS_false_getS d k (by simpa [dictHasS] using hany)
    simp [dictGetS_append, hget, dictGetS_cons, Dyn.keyEq]

theorem dictGetS_dictSetS_ne (d : List (Dyn × Dyn)) (k x : String) (v : Dyn)
    (h : k ≠ x) :
    dictGetS (dictSetS d k v) x = dictGetS d x := by
  by_cases hany : d.any (fun p => p.1.keyEq (.str k)) = true
  · simp only [dictSetS, dictSetK, hany, if_true]
    exact dictGetS_map_repl_ne k x v (by simpa using h) d
  · simp only [dictSetS, dictSetK, hany, Bool.false_eq_true, if_false]
    rw [dictGetS_append]
    cases hdx : dictGetS d x
    · simp only [hdx]
      simp [dictGetS_cons, keyEq_str_str, h, dictGetS]
    · simp [hdx]

theorem parse_int_passthrough (v : Variant) (hv : v = .restJson ∨ v = .restXml)
    (k : SKind) (hk : k = .integer ∨ k = .long) (ser : Ser) (i : Int) :
    parse_shape v (.scalar k ser) (.int i) = .ok (.int i) := by
  rcases hv with h | h <;> rcases hk with h2 | h2 <;> subst h <;> subst h2 <;> rfl

theorem parse_str_passthrough (v : Variant) (hv : v = .restJson ∨ v = .restXml)
    (k : SKind) (hk : k = .string ∨ k = .character) (ser : Ser) (s : String) :
    parse_shape v (.scalar k ser) (.str s) = .ok (.str s) := by
  rcases hv with h | h <;> rcases hk with h2 | h2 <;> subst h <;> subst h2 <;> rfl

theorem header_fold_strip (pfx : String) :
    ∀ (headers : List (String × String)) (acc : List (Dyn × Dyn)),
    (∀ h ∈ headers, strStartsWith (strToLower h.1) pfx = true →
        dictHasS acc (h.1.drop pfx.length) = false) →
    ((headers.filter (fun h => strStartsWith (strToLower h.1) pfx)).map
       (fun h => h.1.drop pfx.length)).Nodup →
    headers.foldl (fun parsed h =>
        if strStartsWith (strToLower h.1) pfx then
          dictSetS parsed (h.1.drop pfx.length) (.str h.2)
        else parsed) acc =
      acc ++ (headers.filter (fun h => strStartsWith (strToLower h.1) pfx)).map
        (fun h => (Dyn.str (h.1.drop pfx.length), Dyn.str h.2)) := by
  intro headers
  induction headers with
  | nil => intro acc _ _; simp
  | cons hd rest ih =>
      intro acc hacc hnd
      by_cases hmatch : strStartsWith (strToLower hd.1) pfx = true
      · have habs : dictHasS acc (hd.1.drop pfx.length) = false :=
          hacc hd (by simp) hmatch
        have hset : dictSetS acc (hd.1.drop pfx.length) (.str hd.2) =
            acc ++ [(.str (hd.1.drop pfx.length), .str hd.2)] :=
          dictSetS_absent _ _ _ habs
        simp only [List.filter_cons, hmatch, if_true, List.map_cons, List.nodup_cons,
          List.mem_map] at hnd
        have hnd2 : ((rest.filter (fun h => strStartsWith (strToLower h.1) pfx)).map
            (fun h => h.1.drop pfx.length)).Nodup := hnd.2
        have hacc2 : ∀ h ∈ rest, strStartsWith (strToLower h.1) pfx = true →
            dictHasS (acc ++ [(.str (hd.1.drop pfx.length), .str hd.2)])
              (h.1.drop pfx.length) = false := by
          intro h hmem hm
          have h1 : dictHasS acc (h.1.drop pfx.length) = false :=
            hacc h (by simp [hmem]) hm
          have h2 : ¬ hd.1.drop pfx.length = h.1.drop pfx.length := by
            intro heq
            exact hnd.1 ⟨h, List.mem_filter.mpr ⟨hmem, hm⟩, heq.symm⟩
          simp only [dictHasS, List.any_append, Bool.or_eq_false_iff]
          refine ⟨by simpa [dictHasS] using h1, ?_⟩
          simp [keyEq_str_str]
          exact h2
        have := ih (acc ++ [(.str (hd.1.drop pfx.length), .str hd.2)]) hacc2 hnd2
        simp only [List.foldl_cons, hmatch, if_true, hset, this,
          List.filter_cons, List.map_cons, List.append_assoc, List.cons_append,
          List.nil_append]
      · have hacc2 : ∀ h ∈ rest, strStartsWith (strToLower h.1) pfx = true →
            dictHasS acc (h.1.drop pfx.length) = false := by
          intro h hmem hm
          exact hacc h (by simp [hmem]) hm
        have hnd2 : ((rest.filter (fun h => strStartsWith (strToLower h.1) pfx)).map
            (fun h => h.1.drop pfx.length)).Nodup := by
          simpa [List.filter_cons, hmatch] using hnd
        have := ih acc hacc2 hnd2
        simp [List.foldl_cons, hmatch, this, List.filter_cons]

theorem parse_header_map_spec (shape : Shape) (headers : List (String × String))
    (hnd : ((headers.filter (fun h => strStartsWith (strToLower h.1)
              (strToLower ((shape.serialization.name).getD "")))).map
              (fun h => h.1.drop (strToLower ((shape.serialization.name).getD "")).length)).Nodup) :
    BaseRestParser.parse_header_map shape headers =
      (headers.filter (fun h => strStartsWith (strToLower h.1)
          (strToLower ((shape.serialization.name).getD "")))).map
        (fun h => (Dyn.str (h.1.drop (strToLower ((shape.serialization.name).getD "")).length),
                   Dyn.str h.2)) := by
  have := header_fold_strip (strToLower ((shape.serialization.name).getD "")) headers []
    (fun h _ _ => rfl) hnd
  simpa [BaseRestParser.parse_header_map] using this

theorem non_payload_props_cons
    (status : Int) (headers : List (String × String))
    (nm : String × Shape) (rest : List (String × Shape))
    (final0 acc1 res : List (Dyn × Dyn))
    (hne : ∀ x, x ≠ nm.1 → dictGetS acc1 x = dictGetS final0 x)
    (hsc : nm.2.serialization.location = some "statusCode" →
      dictGetS acc1 nm.1 = some (.int status))
    (hhd : nm.2.serialization.location = some "header" →
      dictGetS acc1 nm.1 =
        (match headers.lookup ((nm.2.serialization.name).getD nm.1) with
         | some hval => some (.str hval)
         | Option.none => dictGetS final0 nm.1))
    (hhm : nm.2.serialization.location = some "headers" →
      dictGetS acc1 nm.1 = some (.dict (BaseRestParser.parse_header_map nm.2 headers)))
    (hpres : ∀ x, x ∉ rest.map Prod.fst → dictGetS res x = dictGetS acc1 x)
    (hspec : (rest.map Prod.fst).Nodup →
      ∀ name mshape, (name, mshape) ∈ rest →
       (mshape.serialization.location = some "statusCode" →
         dictGetS res name = some (.int status)) ∧
       (mshape.serialization.location = some "header" →
         dictGetS res name =
           (match headers.lookup ((mshape.serialization.name).getD name) with
            | some hval => some (.str hval)
            | Option.none => dictGetS acc1 name)) ∧
       (mshape.serialization.location = some "headers" →
         dictGetS res name = some (.dict (BaseRestParser.parse_header_map mshape headers)))) :
    (∀ x, x ∉ (nm :: rest).map Prod.fst → dictGetS res x = dictGetS final0 x) ∧
    (((nm :: rest).map Prod.fst).Nodup →
      ∀ name mshape, (name, mshape) ∈ nm :: rest →
       (mshape.serialization.location = some "statusCode" →
         dictGetS res name = some (.int status)) ∧
       (mshape.serialization.location = some "header" →
         dictGetS res name =
           (match headers.lookup ((mshape.serialization.name).getD name) with
            | some hval => some (.str hval)
            | Option.none => dictGetS final0 name)) ∧
       (mshape.serialization.location = some "headers" →
         dictGetS res name = some (.dict (BaseRestParser.parse_header_map mshape headers)))) := by
  constructor
  · intro x hx
    simp only [List.map_cons, List.mem_cons, not_or] at hx
    rw [hpres x hx.2, hne x hx.1]
  · intro hnd name mshape hmem
    simp only [List.map_cons, List.nodup_cons] at hnd
    rcases List.mem_cons.mp hmem with heq | hmemr
    · have hn1 : name = nm.1 := congrArg Prod.fst heq
      have hn2 : mshape = nm.2 := congrArg Prod.snd heq
      subst hn1; subst hn2
      have hres1 : dictGetS res nm.1 = dictGetS acc1 nm.1 := hpres nm.1 hnd.1
      exact ⟨fun h => by rw [hres1]; exact hsc h,
             fun h => by rw [hres1]; exact hhd h,
             fun h => by rw [hres1]; exact hhm h⟩
    · have hname : name ∈ rest.map Prod.fst :=
        List.mem_map_of_mem Prod.fst hmemr
      have hnn : name ≠ nm.1 := fun h => hnd.1 (h ▸ hname)
      obtain ⟨s1, s2, s3⟩ := hspec hnd.2 name mshape hmemr
      refine ⟨s1, fun h => ?_, s3⟩
      rw [s2 h, hne name hnn]

theorem non_payload_step_none (v : Variant) (status : Int)
    (headers : List (String × String)) (acc : List (Dyn × Dyn))
    (nm : String × Shape) (h : nm.2.serialization.location = Option.none) :
    BaseRestParser.non_payload_step v status headers acc nm = .ok acc := by
  simp [BaseRestParser.non_payload_step, h]
  rfl

theorem non_payload_step_statusCode (v : Variant) (status : Int)
    (headers : List (String × String)) (acc : List (Dyn × Dyn))
    (nm : String × Shape) (h : nm.2.serialization.location = some "statusCode")
    (pv : Dyn) (hp : parse_shape v nm.2 (.int status) = .ok pv) :
    BaseRestParser.non_payload_step v status headers acc nm =
      .ok (dictSetS acc nm.1 pv) := by
  simp [BaseRestParser.non_payload_step, h, hp, okBind]

theorem non_payload_step_headers (v : Variant) (status : Int)
    (headers : List (String × String)) (acc : List (Dyn × Dyn))
    (nm : String × Shape) (h : nm.2.serialization.location = some "headers") :
    BaseRestParser.non_payload_step v status headers acc nm =
      .ok (dictSetS acc nm.1 (.dict (BaseRestParser.parse_header_map nm.2 headers))) := by
  simp [BaseRestParser.non_payload_step, h]
  rfl

theorem non_payload_step_header_found (v : Variant) (status : Int)
    (headers : List (String × String)) (acc : List (Dyn × Dyn))
    (nm : String × Shape) (h : nm.2.serialization.location = some "header")
    (hv : String)
    (hlk : headers.lookup ((nm.2.serialization.name).getD nm.1) = some hv)
    (pv : Dyn) (hp : parse_shape v nm.2 (.str hv) = .ok pv) :
    BaseRestParser.non_payload_step v status headers acc nm =
      .ok (dictSetS acc nm.1 pv) := by
  simp [BaseRestParser.non_payload_step, h, hlk, hp, okBind]

theorem non_payload_step_header_missing (v : Variant) (status : Int)
    (headers : List (String × String)) (acc : List (Dyn × Dyn))
    (nm : String × Shape) (h : nm.2.serialization.location = some "header")
    (hlk : headers.lookup ((nm.2.serialization.name).getD nm.1) = Option.none) :
    BaseRestParser.non_payload_step v status headers acc nm = .ok acc := by
  simp [BaseRestParser.non_payload_step, h, hlk]
  rfl

theorem non_payload_step_other (v : Variant) (status : Int)
    (headers : List (String × String)) (acc : List (Dyn × Dyn))
    (nm : String × Shape) (loc : String)
    (h : nm.2.serialization.location = some loc)
    (h1 : loc ≠ "statusCode") (h2 : loc ≠ "headers") (h3 : loc ≠ "header") :
    BaseRestParser.non_payload_step v status headers acc nm = .ok acc := by
  simp [BaseRestParser.non_payload_step, h, h1, h2, h3]
  rfl

theorem non_payload_attrs_spec (v : Variant) (hv : v = .restJson ∨ v = .restXml)
    (status : Int) (headers : List (String × String)) :
    ∀ (members : List (String × Shape)) (final0 : List (Dyn × Dyn)),
    (∀ nm ∈ members, benignMember nm) →
    ∃ res, BaseRestParser.parse_non_payload_attrs v status headers members final0 = .ok res ∧
      (∀ x, x ∉ members.map Prod.fst → dictGetS res x = dictGetS final0 x) ∧
      ((members.map Prod.fst).Nodup →
       ∀ name mshape, (name, mshape) ∈ members →
        (mshape.serialization.location = some "statusCode" →
          dictGetS res name = some (.int status)) ∧
        (mshape.serialization.location = some "header" →
          dictGetS res name =
            (match headers.lookup ((mshape.serialization.name).getD name) with
             | some hval => some (.str hval)
             | Option.none => dictGetS final0 name)) ∧
        (mshape.serialization.location = some "headers" →
          dictGetS res name = some (.dict (BaseRestParser.parse_header_map mshape headers)))) := by
  intro members
  induction members with
  | nil =>
      intro final0 _
      refine ⟨final0, rfl, fun x _ => rfl, ?_⟩
      intro _ name mshape hmem
      cases hmem
  | cons nm rest ih =>
      intro final0 hben
      have hbenh := hben nm (by simp)
      have hbent : ∀ q ∈ rest, benignMember q := fun q hq => hben q (by simp [hq])
      cases hloc0 : nm.2.serialization.location with
      | none =>
          obtain ⟨res, hres, hpres, hspec⟩ := ih final0 hbent
          refine ⟨res, ?_, ?_, ?_⟩
          · simp only [BaseRestParser.parse_non_payload_attrs] at hres ⊢
            rw [List.foldlM_cons, non_payload_step_none v status headers final0 nm hloc0]
            simp only [okBind]
            exact hres
          · exact (non_payload_props_cons status headers nm rest final0 final0 res
              (fun x _ => rfl)
              (fun h => absurd (hloc0.symm.trans h) (by simp))
              (fun h => absurd (hloc0.symm.trans h) (by simp))
              (fun h => absurd (hloc0.symm.trans h) (by simp))
              hpres hspec).1
          · exact (non_payload_props_cons status headers nm rest final0 final0 res
              (fun x _ => rfl)
              (fun h => absurd (hloc0.symm.trans h) (by simp))
              (fun h => absurd (hloc0.symm.trans h) (by simp))
              (fun h => absurd (hloc0.symm.trans h) (by simp))
              hpres hspec).2
      | some loc =>
          simp only [benignMember, hloc0] at hbenh
          by_cases hl1 : loc = "statusCode"
          · subst hl1
            obtain ⟨ser, hsh⟩ := hbenh.1 rfl
            have hparse : parse_shape v nm.2 (.int status) = .ok (.int status) := by
              rcases hsh with h | h <;> rw [h]
              · exact parse_int_passthrough v hv .integer (Or.inl rfl) ser status
              · exact parse_int_passthrough v hv .long (Or.inr rfl) ser status
            obtain ⟨res, hres, hpres, hspec⟩ :=
              ih (dictSetS final0 nm.1 (.int status)) hbent
            have hprops := non_payload_props_cons status headers nm rest final0
              (dictSetS final0 nm.1 (.int status)) res
              (fun x hx => dictGetS_dictSetS_ne final0 nm.1 x _ (Ne.symm hx))
              (fun _ => dictGetS_dictSetS_same final0 nm.1 _)
              (fun h => absurd ((hloc0.symm.trans h)) (by simp))
              (fun h => absurd ((hloc0.symm.trans h)) (by simp))
              hpres hspec
            refine ⟨res, ?_, hprops.1, hprops.2⟩
            simp only [BaseRestParser.parse_non_payload_attrs] at hres ⊢
            rw [List.foldlM_cons,
              non_payload_step_statusCode v status headers final0 nm hloc0 _ hparse]
            simp only [okBind]
            exact hres
          · by_cases hl2 : loc = "headers"
            · subst hl2
              obtain ⟨res, hres, hpres, hspec⟩ :=
                ih (dictSetS final0 nm.1
                  (.dict (BaseRestParser.parse_header_map nm.2 headers))) hbent
              have hprops := non_payload_props_cons status headers nm rest final0
                (dictSetS final0 nm.1 (.dict (BaseRestParser.parse_header_map nm.2 headers))) res
                (fun x hx => dictGetS_dictSetS_ne final0 nm.1 x _ (Ne.symm hx))
                (fun h => absurd ((hloc0.symm.trans h)) (by simp))
                (fun h => absurd ((hloc0.symm.trans h)) (by simp))
                (fun _ => dictGetS_dictSetS_same final0 nm.1 _)
                hpres hspec
              refine ⟨res, ?_, hprops.1, hprops.2⟩
              simp only [BaseRestParser.parse_non_payload_attrs] at hres ⊢
              rw [List.foldlM_cons, non_payload_step_headers v status headers final0 nm hloc0]
              simp only [okBind]
              exact hres
            · by_cases hl3 : loc = "header"
              · subst hl3
                obtain ⟨ser, hsh⟩ := hbenh.2 rfl
                cases hlk : headers.lookup ((nm.2.serialization.name).getD nm.1) with
                | none =>
                    obtain ⟨res, hres, hpres, hspec⟩ := ih final0 hbent
                    have hprops := non_payload_props_cons status headers nm rest final0
                      final0 res (fun x _ => rfl)
                      (fun h => absurd ((hloc0.symm.trans h)) (by simp))
                      (fun _ => by rw [hlk])
                      (fun h => absurd ((hloc0.symm.trans h)) (by simp))
                      hpres hspec
                    refine ⟨res, ?_, hprops.1, hprops.2⟩
                    simp only [BaseRestParser.parse_non_payload_attrs] at hres ⊢
                    rw [List.foldlM_cons,
                      non_payload_step_header_missing v status headers final0 nm hloc0 hlk]
                    simp only [okBind]
                    exact hres
                | some hval =>
                    have hparse : parse_shape v nm.2 (.str hval) = .ok (.str hval) := by
                      rcases hsh with h | h <;> rw [h]
                      · exact parse_str_passthrough v hv .string (Or.inl rfl) ser hval
                      · exact parse_str_passthrough v hv .character (Or.inr rfl) ser hval
                    obtain ⟨res, hres, hpres, hspec⟩ :=
                      ih (dictSetS final0 nm.1 (.str hval)) hbent
                    have hprops := non_payload_props_cons status headers nm rest final0
                      (dictSetS final0 nm.1 (.str hval)) res
                      (fun x hx => dictGetS_dictSetS_ne final0 nm.1 x _ (Ne.symm hx))
                      (fun h => absurd ((hloc0.symm.trans h)) (by simp))
                      (fun _ => by rw [hlk]; exact dictGetS_dictSetS_same final0 nm.1 _)
                      (fun h => absurd ((hloc0.symm.trans h)) (by simp))
                      hpres hspec
                    refine ⟨res, ?_, hprops.1, hprops.2⟩
                    simp only [BaseRestParser.parse_non_payload_attrs] at hres ⊢
                    rw [List.foldlM_cons,
                      non_payload_step_header_found v status headers final0 nm hloc0 _ hlk _ hparse]
                    simp only [okBind]
                    exact hres
              · obtain ⟨res, hres, hpres, hspec⟩ := ih final0 hbent
                have hprops := non_payload_props_cons status headers nm rest final0
                  final0 res (fun x _ => rfl)
                  (fun h => absurd (Option.some.inj (hloc0.symm.trans h)) hl1)
                  (fun h => absurd (Option.some.inj (hloc0.symm.trans h)) hl3)
                  (fun h => absurd (Option.some.inj (hloc0.symm.trans h)) hl2)
                  hpres hspec
                refine ⟨res, ?_, hprops.1, hprops.2⟩
                simp only [BaseRestParser.parse_non_payload_attrs] at hres ⊢
                rw [List.foldlM_cons,
                  non_payload_step_other v status headers final0 nm loc hloc0 hl1 hl2 hl3]
                simp only [okBind]
                exact hres

/-- C9: for the REST variants, every structure member with a declared
location is filled independently of the payload: a `statusCode` member
receives the numeric status code; a `header` member receives the single
header matched case-sensitively by its declared (or member) name, and when
that header is absent the member is left exactly as in the incoming result
mapping (so it is omitted when it was not already there); a `headers`
member receives every response header whose name case-insensitively starts
with the declared prefix, keyed by the header name with the prefix
stripped. -/
theorem C9_theorem (v : Variant) (hv : v = .restJson ∨ v = .restXml)
    (status : Int) (headers : List (String × String))
    (members : List (String × Shape)) (final0 : List (Dyn × Dyn))
    (hben : ∀ nm ∈ members, benignMember nm)
    (hnd : (members.map Prod.fst).Nodup) :
    ∃ res,
      BaseRestParser.parse_non_payload_attrs v status headers members final0 = .ok res ∧
      (∀ x, x ∉ members.map Prod.fst → dictGetS res x = dictGetS final0 x) ∧
      ∀ name mshape, (name, mshape) ∈ members →
        (mshape.serialization.location = some "statusCode" →
          dictGetS res name = some (.int status)) ∧
        (mshape.serialization.location = some "header" →
          dictGetS res name =
            (match headers.lookup ((mshape.serialization.name).getD name) with
             | some hval => some (.str hval)
             | Option.none => dictGetS final0 name)) ∧
        (mshape.serialization.location = some "headers" →
          ((headers.filter (fun h => strStartsWith (strToLower h.1)
              (strToLower ((mshape.serialization.name).getD "")))).map
              (fun h => h.1.drop (strToLower ((mshape.serialization.name).getD "")).length)).Nodup →
          dictGetS res name = some (.dict
            ((headers.filter (fun h => strStartsWith (strToLower h.1)
                (strToLower ((mshape.serialization.name).getD "")))).map
              (fun h => (Dyn.str (h.1.drop
                  (strToLower ((mshape.serialization.name).getD "")).length),
                Dyn.str h.2))))) := by
  obtain ⟨res, h1, h2, h3⟩ := non_payload_attrs_spec v hv status headers members final0 hben
  refine ⟨res, h1, h2, ?_⟩
  intro name mshape hmem
  obtain ⟨s1, s2, s3⟩ := h3 hnd name mshape hmem
  exact ⟨s1, s2, fun hl hnd2 => by rw [s3 hl, parse_header_map_spec mshape headers hnd2]⟩

/-- C9 witness: status 201 with headers x-foo: v, X-Meta-k1: a, x-meta-k2: b
and members Status (statusCode), Foo (header x-foo), Meta (headers X-Meta-). -/
theorem C9_witness :
    ∃ res,
      BaseRestParser.parse_non_payload_attrs .restJson 201
        [("x-foo", "v"), ("X-Meta-k1", "a"), ("x-meta-k2", "b")]
        [("Status", Shape.scalar .integer
            ⟨Option.none, some "statusCode", false, Option.none, Option.none⟩),
         ("Foo", Shape.scalar .string
            ⟨some "x-foo", some "header", false, Option.none, Option.none⟩),
         ("Meta", Shape.scalar .string
            ⟨some "X-Meta-", some "headers", false, Option.none, Option.none⟩)]
        [] = .ok res ∧
      dictGetS res "Status" = some (.int 201) ∧
      dictGetS res "Foo" = some (.str "v") ∧
      dictGetS res "Meta" =
        some (.dict [(.str "k1", .str "a"), (.str "k2", .str "b")]) := by
  obtain ⟨res, h1, h2, h3⟩ := C9_theorem .restJson (Or.inl rfl) 201
    [("x-foo", "v"), ("X-Meta-k1", "a"), ("x-meta-k2", "b")]
    [("Status", Shape.scalar .integer
        ⟨Option.none, some "statusCode", false, Option.none, Option.none⟩),
     ("Foo", Shape.scalar .string
        ⟨some "x-foo", some "header", false, Option.none, Option.none⟩),
     ("Meta", Shape.scalar .string
        ⟨some "X-Meta-", some "headers", false, Option.none, Option.none⟩)]
    []
    (by
      intro nm hmem
      simp only [List.mem_cons, List.not_mem_nil, or_false] at hmem
      rcases hmem with rfl | rfl | rfl
      · exact ⟨fun _ => ⟨_, Or.inl rfl⟩, fun h => by simp at h⟩
      · exact ⟨fun h => by simp at h, fun _ => ⟨_, Or.inl rfl⟩⟩
      · exact ⟨fun h => by simp at h, fun h => by simp at h⟩)
    (by decide)
  refine ⟨res, h1, ?_, ?_, ?_⟩
  · exact (h3 "Status" (Shape.scalar .integer
      ⟨Option.none, some "statusCode", false, Option.none, Option.none⟩) (by simp)).1 rfl
  · rw [(h3 "Foo" (Shape.scalar .string
      ⟨some "x-foo", some "header", false, Option.none, Option.none⟩) (by simp)).2.1 rfl]
    rfl
  · rw [(h3 "Meta" (Shape.scalar .string
      ⟨some "X-Meta-", some "headers", false, Option.none, Option.none⟩) (by simp)).2.2 rfl
      (by decide)]
    rfl
/-- C6: the `json` error path takes `Error.Message` from the body's
`message` (else `Message`) key, `Error.Code` from `__type` with everything
up to and including the last `#` stripped (omitted when `__type` is
absent), and `ResponseMetadata.RequestId` from the `x-amzn-requestid`
header; in particular `{"__type":"com.x#FooException","message":"bad"}`
with `x-amzn-requestid: rid2` decodes to
`{"Error":{"Message":"bad","Code":"FooException"},
  "ResponseMetadata":{"RequestId":"rid2"}}`. -/
theorem C6_theorem :
    (∀ (kvs : List (Dyn × Dyn)) (cs rid : String)
       (headers : List (String × String)) (st : Int),
      st ≥ 301 →
      dictGetS kvs "__type" = some (.str cs) →
      headers.lookup "x-amzn-requestid" = some rid →
      JSONParser.parse ⟨st, headers, .dict kvs⟩ Option.none =
        .ok (.dict [(.str "Error", .dict
            [(.str "Message",
              (dictGetS kvs "message").getD ((dictGetS kvs "Message").getD .none)),
             (.str "Code", .str (JSONParser.error_code cs))]),
          (.str "ResponseMetadata", .dict [(.str "RequestId", .str rid)])])) ∧
    (∀ (kvs : List (Dyn × Dyn)) (headers : List (String × String)) (st : Int),
      st ≥ 301 →
      dictGetS kvs "__type" = Option.none →
      headers.lookup "x-amzn-requestid" = Option.none →
      JSONParser.parse ⟨st, headers, .dict kvs⟩ Option.none =
        .ok (.dict [(.str "Error", .dict
            [(.str "Message",
              (dictGetS kvs "message").getD ((dictGetS kvs "Message").getD .none))]),
          (.str "ResponseMetadata", .dict [])])) ∧
    JSONParser.parse ⟨400, [("x-amzn-requestid", "rid2")],
        .dict [(.str "__type", .str "com.x#FooException"),
               (.str "message", .str "bad")]⟩ Option.none =
      .ok (.dict [(.str "Error", .dict
          [(.str "Message", .str "bad"), (.str "Code", .str "FooException")]),
        (.str "ResponseMetadata", .dict [(.str "RequestId", .str "rid2")])]) := by
  refine ⟨?_, ?_, rfl⟩
  · intro kvs cs rid headers st hst hty hrid
    unfold JSONParser.parse
    rw [if_pos hst]
    unfold JSONParser.do_error_parse JSONParser.inject_response_metadata
    simp only [hty, hrid, okBind, exceptBindPure]
    rfl
  · intro kvs headers st hst hty hrid
    unfold JSONParser.parse
    rw [if_pos hst]
    unfold JSONParser.do_error_parse JSONParser.inject_response_metadata
    simp only [hty, hrid, okBind, exceptBindPure]
    rfl

/-- C6 witness: a concrete instance of the universal part, body
`{"__type":"a#B","message":"m"}` with request id `rid9` and status 403. -/
theorem C6_witness :
    JSONParser.parse ⟨403, [("x-amzn-requestid", "rid9")],
        .dict [(.str "__type", .str "a#B"), (.str "message", .str "m")]⟩
        Option.none =
      .ok (.dict [(.str "Error", .dict
          [(.str "Message", .str "m"), (.str "Code", .str "B")]),
        (.str "ResponseMetadata", .dict [(.str "RequestId", .str "rid9")])]) :=
  C6_theorem.1 [(.str "__type", .str "a#B"), (.str "message", .str "m")]
    "a#B" "rid9" [("x-amzn-requestid", "rid9")] 403 (by decide) rfl rfl
/-- C2 (amended): for the `json` and `rest-json` variants every error result
has exactly the top-level keys `Error` and `ResponseMetadata`; `Error`
always contains `Message` and contains `Code` exactly when its source is
present (the body's `__type` key for `json`, the `x-amzn-errortype` header
for `rest-json`).  For the XML family the top-level keys derive from the
leaf-collapsed body; a standard wrapped `query` error body yields exactly
`Error` (with `Code` and `Message`) and `ResponseMetadata`. -/
theorem C2_theorem :
    (∀ (kvs : List (Dyn × Dyn)) (headers : List (String × String)) (st : Int),
      st ≥ 301 →
      (dictGetS kvs "__type" = Option.none ∨
        ∃ cs, dictGetS kvs "__type" = some (.str cs)) →
      ∃ inner rm,
        JSONParser.parse ⟨st, headers, .dict kvs⟩ Option.none =
          .ok (.dict [(.str "Error", .dict inner),
                      (.str "ResponseMetadata", .dict rm)]) ∧
        dictHasS inner "Message" = true ∧
        (dictHasS inner "Code" = true ↔
          ∃ cs, dictGetS kvs "__type" = some (.str cs))) ∧
    (∀ (body : RestJsonBody) (kvs : List (Dyn × Dyn))
       (headers : List (String × String)) (st : Int),
      st ≥ 301 →
      RestJSONParser.initial_body_parse body = .ok (.dict kvs) →
      ∃ inner,
        RestJSONParser.parse ⟨st, headers, body⟩ Option.none =
          .ok (.dict [(.str "Error", .dict inner),
                      (.str "ResponseMetadata", .dict [])]) ∧
        dictHasS inner "Message" = true ∧
        (dictHasS inner "Code" = true ↔
          ∃ c, headers.lookup "x-amzn-errortype" = some c)) ∧
    (∀ (c m r : String) (st : Int) (headers : List (String × String)),
      st ≥ 301 →
      QueryParser.parse ⟨st, headers, queryStdErrorBody c m r⟩ Option.none =
        .ok (.dict [(.str "Error", .dict
            [(.str "Code", .str c), (.str "Message", .str m)]),
          (.str "ResponseMetadata", .dict [(.str "RequestId", .str r)])])) := by
  refine ⟨?_, ?_, ?_⟩
  · intro kvs headers st hst hty
    unfold JSONParser.parse
    rw [if_pos hst]
    unfold JSONParser.do_error_parse JSONParser.inject_response_metadata
    rcases hty with hty | ⟨cs, hty⟩
    · cases hrid : headers.lookup "x-amzn-requestid" with
      | none =>
          refine ⟨[(.str "Message",
            (dictGetS kvs "message").getD ((dictGetS kvs "Message").getD .none))],
            [], ?_, rfl, ?_⟩
          · simp only [hty, hrid, okBind]; rfl
          · constructor
            · intro h; exact Bool.noConfusion h
            · rintro ⟨cs, h⟩; rw [hty] at h; cases h
      | some rid =>
          refine ⟨[(.str "Message",
            (dictGetS kvs "message").getD ((dictGetS kvs "Message").getD .none))],
            [(.str "RequestId", .str rid)], ?_, rfl, ?_⟩
          · simp only [hty, hrid, okBind]; rfl
          · constructor
            · intro h; exact Bool.noConfusion h
            · rintro ⟨cs, h⟩; rw [hty] at h; cases h
    · cases hrid : headers.lookup "x-amzn-requestid" with
      | none =>
          refine ⟨[(.str "Message",
            (dictGetS kvs "message").getD ((dictGetS kvs "Message").getD .none)),
            (.str "Code", .str (JSONParser.error_code cs))],
            [], ?_, rfl, ?_⟩
          · simp only [hty, hrid, okBind]; rfl
          · exact ⟨fun _ => ⟨cs, hty⟩, fun _ => rfl⟩
      | some rid =>
          refine ⟨[(.str "Message",
            (dictGetS kvs "message").getD ((dictGetS kvs "Message").getD .none)),
            (.str "Code", .str (JSONParser.error_code cs))],
            [(.str "RequestId", .str rid)], ?_, rfl, ?_⟩
          · simp only [hty, hrid, okBind]; rfl
          · exact ⟨fun _ => ⟨cs, hty⟩, fun _ => rfl⟩
  · intro body kvs headers st hst hbody
    unfold RestJSONParser.parse
    rw [if_pos hst]
    unfold RestJSONParser.do_error_parse
    rw [hbody]
    cases hlk : headers.lookup "x-amzn-errortype" with
    | none =>
        refine ⟨[(.str "Message", (dictGetS kvs "message").getD (.str ""))],
          ?_, rfl, ?_⟩
        · simp only [hlk, okBind]; rfl
        · constructor
          · intro h; exact Bool.noConfusion h
          · rintro ⟨c, h⟩; cases h
    | some code =>
        refine ⟨[(.str "Message", (dictGetS kvs "message").getD (.str "")),
          (.str "Code", .str ((splitChar ':' code).headD code))],
          ?_, rfl, ?_⟩
        · simp only [hlk, okBind]; rfl
        · exact ⟨fun _ => ⟨code, rfl⟩, fun _ => rfl⟩
  · intro c m r st headers hst
    unfold QueryParser.parse
    rw [if_pos hst]
    rfl

/-- C2 witness: a standard wrapped query error body with code `C`, message
`M` and request id `R` at status 400. -/
theorem C2_witness :
    QueryParser.parse ⟨400, [], queryStdErrorBody "C" "M" "R"⟩ Option.none =
      .ok (.dict [(.str "Error", .dict
          [(.str "Code", .str "C"), (.str "Message", .str "M")]),
        (.str "ResponseMetadata", .dict [(.str "RequestId", .str "R")])]) :=
  C2_theorem.2.2 "C" "M" "R" 400 [] (by decide)
/-- C8: the `ec2` error path takes the Query leaf-collapse of the body,
renames its top-level `RequestID` into `ResponseMetadata.RequestId`, and
unwraps the top-level `Errors` wrapper to its single `Error` child; in
particular the standard EC2 error body with code `c`, message `m` and
request id `r` decodes to
`{"ResponseMetadata":{"RequestId":r},"Error":{"Code":c,"Message":m}}`. -/
theorem C8_theorem :
    (∀ (resp : XmlResponse) (d : List (Dyn × Dyn)) (rid : Dyn)
       (d1 : List (Dyn × Dyn)) (ed : List (Dyn × Dyn)) (d3 : List (Dyn × Dyn))
       (e : Dyn),
      resp.status_code ≥ 301 →
      QueryParser.do_error_parse resp = .ok (.dict d) →
      dictPopS d "RequestID" = some (rid, d1) →
      dictPopS (dictSetS d1 "ResponseMetadata"
          (.dict [(.str "RequestId", rid)])) "Errors" = some (.dict ed, d3) →
      dictGetS ed "Error" = some e →
      EC2QueryParser.parse resp Option.none =
        .ok (.dict (dictSetS d3 "Error" e))) ∧
    (∀ (c m r : String) (st : Int) (headers : List (String × String)),
      st ≥ 301 →
      EC2QueryParser.parse ⟨st, headers, ec2ErrorBody c m r⟩ Option.none =
        .ok (.dict [(.str "ResponseMetadata", .dict [(.str "RequestId", .str r)]),
          (.str "Error", .dict [(.str "Code", .str c), (.str "Message", .str m)])])) := by
  constructor
  · intro resp d rid d1 ed d3 e hst hq hpop1 hpop2 hget
    unfold EC2QueryParser.parse
    rw [if_pos hst]
    unfold EC2QueryParser.do_error_parse
    rw [hq, okBind]
    simp only [hpop1, hpop2, hget, okBind, pure_bind]
    rfl
  · intro c m r st headers hst
    unfold EC2QueryParser.parse
    rw [if_pos hst]
    rfl

/-- C8 witness: the concrete EC2 error body with code `E`, message `bad`
and request id `rid` at status 400. -/
theorem C8_witness :
    EC2QueryParser.parse ⟨400, [], ec2ErrorBody "E" "bad" "rid"⟩ Option.none =
      .ok (.dict [(.str "ResponseMetadata", .dict [(.str "RequestId", .str "rid")]),
        (.str "Error", .dict [(.str "Code", .str "E"), (.str "Message", .str "bad")])]) :=
  C8_theorem.2 "E" "bad" "rid" 400 [] (by decide)
